import Mathlib

/-!
# kitAtlas core — shallow embedding

A Lean model of the cache/paging/scheduling core of the kitAtlas
font-atlas library, translated from the TypeScript sources
(`Page`, `VariantAtlas` in `variant-atlas.ts`, `FontAtlas`, and
`types.ts`), together with proofs about the frozen claims.

Modelling conventions:
* JavaScript `number`s are `Nat` where the source only ever holds
  non-negative integers (pixel coordinates, sizes, counters) and `Int`
  for metric offsets and plane bounds that may be negative.
* Texture handles are opaque `Nat` identifiers; each `VariantAtlas`
  carries a `nextTex` counter standing in for the texture factory.
* The page pixel buffer and the code-point indexed maps are modelled as
  functions (`Nat → Nat`, `Nat → Option GlyphLocation`, `Nat → Bool`).
* The SDF oracle (an external collaborator, out of scope of the spec) is
  a parameter record; its `generate` yields RGBA bytes directly, folding
  in the floating-point `floatToRGBA` conversion which is outside the
  model.  The oracle is stateless here (`loadFont` is folded into the
  font-handle argument).
* `Date.now()` timestamps (`lastAccessed`) and `console.warn` logging
  are omitted: no claim observes them.
* TypeScript exceptions (`throw new Error(...)`) are modelled by an
  `Option AtlasError` result component; the state component carries the
  mutations performed before the throw, matching JS exception semantics.
-/

/-- Plane bounds `{l, b, r, t}` of a glyph, in glyph-local units. -/
structure PlaneBounds where
  l : Int
  b : Int
  r : Int
  t : Int
deriving DecidableEq

/-- Glyph metrics record from `types.ts`. -/
structure GlyphMetrics where
  width : Nat
  height : Nat
  advance : Nat
  xOffset : Int
  yOffset : Int
  planeBounds : PlaneBounds
deriving DecidableEq

/-- Constant `PLACEHOLDER_METRICS` from `variant-atlas.ts`: all-zero metrics used for
reserved but not-yet-generated glyphs. -/
def PLACEHOLDER_METRICS : GlyphMetrics :=
  { width := 0, height := 0, advance := 0, xOffset := 0, yOffset := 0,
    planeBounds := { l := 0, b := 0, r := 0, t := 0 } }

/-- The `page` back-reference stored inside a `GlyphLocation`. -/
structure PageRef where
  texture : Nat
  width : Nat
  height : Nat
deriving DecidableEq

/-- Record `GlyphLocation` from `types.ts`. -/
structure GlyphLocation where
  page : PageRef
  x : Nat
  y : Nat
  width : Nat
  height : Nat
  metrics : GlyphMetrics
  empty : Bool
  missing : Bool
deriving DecidableEq

/-- A fixed-size RGBA page (`Page` class).  `buffer` maps a byte index to the
byte stored there. -/
structure Page where
  width : Nat
  height : Nat
  buffer : Nat → Nat
  texture : Nat
  cursorX : Nat
  cursorY : Nat
  rowHeight : Nat
  dirty : Bool

instance : Inhabited Page :=
  ⟨{ width := 0, height := 0, buffer := fun _ => 0, texture := 0,
     cursorX := 0, cursorY := 0, rowHeight := 0, dirty := false }⟩

/-- Constructor `new Page(width, height, textureFactory)`: zeroed buffer, cursors at the
origin, texture freshly created (handle supplied by the caller). -/
def Page.new (width height texture : Nat) : Page :=
  { width := width, height := height, buffer := fun _ => 0, texture := texture,
    cursorX := 0, cursorY := 0, rowHeight := 0, dirty := false }

/-- The inner `for (let col = 0; col < w * 4; col++)` loop of `Page.tryAdd`:
copy `n` bytes from `pixels` at `srcOff` into `buf` at `dstOff`, in ascending
order. -/
def writeBytes (buf pixels : Nat → Nat) (dstOff srcOff : Nat) : Nat → (Nat → Nat)
  | 0 => buf
  | n + 1 => Function.update (writeBytes buf pixels dstOff srcOff n)
      (dstOff + n) (pixels (srcOff + n))

/-- The row loop of `Page.tryAdd`: blit a `w × h` RGBA tile into `buf` at
`(x, y)` with the vertical flip (`dstRow = h - 1 - row`), page stride `W`. -/
def blit (buf pixels : Nat → Nat) (x y w h W : Nat) : Nat → Nat :=
  (List.range h).foldl
    (fun b row => writeBytes b pixels (((y + (h - 1 - row)) * W + x) * 4)
      (row * w * 4) (w * 4)) buf

/-- Method `Page.tryAdd(pixels, w, h)`.  Returns the placement position (or `none`)
together with the updated page (the shelf advance mutates the page even when
the add fails). -/
def Page.tryAdd (p : Page) (pixels : Nat → Nat) (w h : Nat) :
    Option (Nat × Nat) × Page :=
  let paddedW := w + 1
  let paddedH := h + 1
  let p :=
    if p.width < p.cursorX + paddedW then
      { p with cursorY := p.cursorY + p.rowHeight + 1, cursorX := 0, rowHeight := 0 }
    else p
  if p.height < p.cursorY + paddedH then
    (none, p)
  else
    let x := p.cursorX
    let y := p.cursorY
    (some (x, y),
      { p with buffer := blit p.buffer pixels x y w h p.width,
               cursorX := p.cursorX + paddedW,
               rowHeight := max p.rowHeight paddedH,
               dirty := true })

/-- Method `Page.flush()`: push the buffer to the texture backend when dirty.  The
backend call itself is external; the observable state change is the cleared
dirty bit. -/
def Page.flush (p : Page) : Page :=
  if p.dirty then { p with dirty := false } else p

/-- Function `isLatinChar` from `types.ts`. -/
def isLatinChar (codePoint : Nat) : Bool :=
  (0x30 ≤ codePoint && codePoint ≤ 0x39) ||
  (0x41 ≤ codePoint && codePoint ≤ 0x5A) ||
  (0x61 ≤ codePoint && codePoint ≤ 0x7A)

/-- Constant `LATIN_CODEPOINTS` from `types.ts`: 0-9, A-Z, a-z in that order. -/
def LATIN_CODEPOINTS : List Nat :=
  List.range' 0x30 10 ++ List.range' 0x41 26 ++ List.range' 0x61 26

/-- Errors thrown by `VariantAtlas.fillGlyph` / `addGlyph`. -/
inductive AtlasError where
  | latinPageFull
  | freshPageOverflow
deriving DecidableEq

/-- Which page of a `VariantAtlas` an operation selected: the Latin page or
the mixed page at a given list index. -/
inductive PageSel where
  | latin
  | mixed (i : Nat)
deriving DecidableEq

/-- The `VariantAtlas` class state. -/
structure VariantAtlas where
  variantId : String
  genSize : Nat
  latinPage : Option Page
  mixedPages : List Page
  glyphIndex : Nat → Option GlyphLocation
  pendingGlyphs : Nat → Bool
  pageSize : Nat
  maxMixedPages : Nat
  nextTex : Nat

/-- The `VariantAtlas` constructor. -/
def VariantAtlas.init (variantId : String) (genSize pageSize maxMixedPages : Nat) :
    VariantAtlas :=
  { variantId := variantId, genSize := genSize, latinPage := none, mixedPages := [],
    glyphIndex := fun _ => none, pendingGlyphs := fun _ => false,
    pageSize := pageSize, maxMixedPages := maxMixedPages, nextTex := 0 }

/-- Dereference a page selection (selections produced by the operations below
always point at an existing page). -/
def VariantAtlas.pageAt (va : VariantAtlas) : PageSel → Page
  | .latin => va.latinPage.getD default
  | .mixed i => va.mixedPages.getD i default

/-- Write back a page through its selection. -/
def VariantAtlas.setPage (va : VariantAtlas) : PageSel → Page → VariantAtlas
  | .latin, p => { va with latinPage := some p }
  | .mixed i, p => { va with mixedPages := va.mixedPages.set i p }

/-- Method `createMixedPage()`: append a fresh page (the `maxMixedPages` cap only
logs a warning; allocation proceeds regardless).  Returns the new page's
index. -/
def VariantAtlas.createMixedPage (va : VariantAtlas) : Nat × VariantAtlas :=
  (va.mixedPages.length,
    { va with mixedPages := va.mixedPages ++ [Page.new va.pageSize va.pageSize va.nextTex],
              nextTex := va.nextTex + 1 })

/-- Method `getOrCreatePage(isLatin, glyphHeight)`: the Latin page (lazily created),
or the first mixed page whose shelf has vertical headroom for `glyphHeight`,
else a fresh mixed page. -/
def VariantAtlas.getOrCreatePage (va : VariantAtlas) (isLatin : Bool)
    (glyphHeight : Nat) : PageSel × VariantAtlas :=
  if isLatin then
    match va.latinPage with
    | some _ => (.latin, va)
    | none => (.latin, { va with latinPage := some (Page.new va.pageSize va.pageSize va.nextTex),
                                 nextTex := va.nextTex + 1 })
  else
    match va.mixedPages.findIdx? (fun page => page.cursorY + glyphHeight ≤ page.height) with
    | some i => (.mixed i, va)
    | none =>
      let (i, va) := va.createMixedPage
      (.mixed i, va)

/-- Method `VariantAtlas.getGlyph(cp)`: the cached location, unless `cp` is still
pending. -/
def VariantAtlas.getGlyph (va : VariantAtlas) (codePoint : Nat) :
    Option GlyphLocation :=
  if va.pendingGlyphs codePoint then none
  else va.glyphIndex codePoint

/-- Method `VariantAtlas.reserveGlyph(cp)`: mark pending, insert a placeholder
location referencing the page that will receive the glyph, return it. -/
def VariantAtlas.reserveGlyph (va : VariantAtlas) (codePoint : Nat) :
    GlyphLocation × VariantAtlas :=
  let isLatin := isLatinChar codePoint
  let r := va.getOrCreatePage isLatin va.genSize
  let va := r.2
  let page := va.pageAt r.1
  let location : GlyphLocation :=
    { page := { texture := page.texture, width := page.width, height := page.height },
      x := 0, y := 0, width := 0, height := 0,
      metrics := PLACEHOLDER_METRICS, empty := false, missing := false }
  (location,
    { va with pendingGlyphs := fun c => if c = codePoint then true else va.pendingGlyphs c,
              glyphIndex := fun c => if c = codePoint then some location else va.glyphIndex c })

/-- Method `updateGlyphLocation`: mutate the existing location in place (all fields),
then clear pending. -/
def VariantAtlas.updateGlyphLocation (va : VariantAtlas) (codePoint : Nat)
    (sel : PageSel) (pos : Nat × Nat) (metrics : GlyphMetrics) : VariantAtlas :=
  let page := va.pageAt sel
  let va :=
    match va.glyphIndex codePoint with
    | some _ =>
      let location : GlyphLocation :=
        { page := { texture := page.texture, width := page.width, height := page.height },
          x := pos.1, y := pos.2, width := metrics.width, height := metrics.height,
          metrics := metrics, empty := false, missing := false }
      { va with glyphIndex := fun c => if c = codePoint then some location else va.glyphIndex c }
    | none => va
  { va with pendingGlyphs := fun c => if c = codePoint then false else va.pendingGlyphs c }

/-- Method `storeGlyph`: insert a fresh location (prefab path), clear pending. -/
def VariantAtlas.storeGlyph (va : VariantAtlas) (codePoint : Nat)
    (sel : PageSel) (pos : Nat × Nat) (metrics : GlyphMetrics) : VariantAtlas :=
  let page := va.pageAt sel
  let location : GlyphLocation :=
    { page := { texture := page.texture, width := page.width, height := page.height },
      x := pos.1, y := pos.2, width := metrics.width, height := metrics.height,
      metrics := metrics, empty := false, missing := false }
  { va with glyphIndex := fun c => if c = codePoint then some location else va.glyphIndex c,
            pendingGlyphs := fun c => if c = codePoint then false else va.pendingGlyphs c }

/-- Method `VariantAtlas.fillGlyph(cp, pixels, metrics)`. -/
def VariantAtlas.fillGlyph (va : VariantAtlas) (codePoint : Nat)
    (pixels : Nat → Nat) (metrics : GlyphMetrics) :
    Option AtlasError × VariantAtlas :=
  let isLatin := isLatinChar codePoint
  let r := va.getOrCreatePage isLatin metrics.height
  let sel := r.1
  let va := r.2
  let t := (va.pageAt sel).tryAdd pixels metrics.width metrics.height
  let va := va.setPage sel t.2
  match t.1 with
  | some pos => (none, va.updateGlyphLocation codePoint sel pos metrics)
  | none =>
    if isLatin then (some .latinPageFull, va)
    else
      let c := va.createMixedPage
      let j := c.1
      let va := c.2
      let t2 := (va.pageAt (.mixed j)).tryAdd pixels metrics.width metrics.height
      let va := va.setPage (.mixed j) t2.2
      match t2.1 with
      | some pos => (none, va.updateGlyphLocation codePoint (.mixed j) pos metrics)
      | none => (some .freshPageOverflow, va)

/-- Method `VariantAtlas.addGlyph(cp, pixels, metrics)`: the synchronous prefab
variant of `fillGlyph`, inserting a fresh location via `storeGlyph`. -/
def VariantAtlas.addGlyph (va : VariantAtlas) (codePoint : Nat)
    (pixels : Nat → Nat) (metrics : GlyphMetrics) :
    Option AtlasError × VariantAtlas :=
  let isLatin := isLatinChar codePoint
  let r := va.getOrCreatePage isLatin metrics.height
  let sel := r.1
  let va := r.2
  let t := (va.pageAt sel).tryAdd pixels metrics.width metrics.height
  let va := va.setPage sel t.2
  match t.1 with
  | some pos => (none, va.storeGlyph codePoint sel pos metrics)
  | none =>
    if isLatin then (some .latinPageFull, va)
    else
      let c := va.createMixedPage
      let j := c.1
      let va := c.2
      let t2 := (va.pageAt (.mixed j)).tryAdd pixels metrics.width metrics.height
      let va := va.setPage (.mixed j) t2.2
      match t2.1 with
      | some pos => (none, va.storeGlyph codePoint (.mixed j) pos metrics)
      | none => (some .freshPageOverflow, va)

/-- Method `VariantAtlas.markEmpty(cp, missing)`. -/
def VariantAtlas.markEmpty (va : VariantAtlas) (codePoint : Nat)
    (missing : Bool) : VariantAtlas :=
  let va :=
    match va.glyphIndex codePoint with
    | some location =>
      { va with glyphIndex := fun c =>
          if c = codePoint then
            some { location with empty := true, missing := missing, width := 0, height := 0 }
          else va.glyphIndex c }
    | none => va
  { va with pendingGlyphs := fun c => if c = codePoint then false else va.pendingGlyphs c }

/-- Method `flushDirtyPages()`. -/
def VariantAtlas.flushDirtyPages (va : VariantAtlas) : VariantAtlas :=
  { va with latinPage := va.latinPage.map Page.flush,
            mixedPages := va.mixedPages.map Page.flush }

/-- The oracle-side metrics record (`MSDFMetrics`). -/
structure OracleMetrics where
  width : Nat
  height : Nat
  advance : Nat
  planeBounds : PlaneBounds
deriving DecidableEq

/-- One generated glyph as delivered to the atlas: metrics plus RGBA bytes
(the float-to-byte conversion `floatToRGBA` happens outside the model). -/
structure OracleGlyph where
  metrics : OracleMetrics
  pixels : Nat → Nat

/-- The SDF oracle (external collaborator).  `hasGlyph font cp` and
`generate font cp genSize axes`; the font-bytes buffer is an opaque handle,
and `loadFont` / variation-axis selection are folded into the arguments. -/
structure Oracle where
  hasGlyph : Nat → Nat → Bool
  generate : Nat → Nat → Nat → List Nat → Option OracleGlyph

/-- The `GlyphMetrics` record `processBatch` / `prefabLatin` build from an
oracle result (`xOffset := planeBounds.l`, `yOffset := planeBounds.b`). -/
def toGlyphMetrics (m : OracleMetrics) : GlyphMetrics :=
  { width := m.width, height := m.height, advance := m.advance,
    xOffset := m.planeBounds.l, yOffset := m.planeBounds.b,
    planeBounds := m.planeBounds }

/-- Record `AtlasConfig` from `types.ts`. -/
structure AtlasConfig where
  genSizes : List Nat
  sizeThresholds : List Nat
  pageSize : Nat
  maxMixedPages : Nat
  pixelRange : Nat
deriving DecidableEq

/-- Constant `DEFAULT_CONFIG` from `types.ts`. -/
def DEFAULT_CONFIG : AtlasConfig :=
  { genSizes := [32, 64, 128], sizeThresholds := [40, 80],
    pageSize := 1024, maxMixedPages := 8, pixelRange := 4 }

/-- A `PendingGlyph` queue entry of `FontAtlas`.  The font buffer is an opaque
handle and the variation axes an opaque list (only emptiness is inspected by
the source, and our oracle receives them verbatim). -/
structure PendingGlyph where
  codePoint : Nat
  genSize : Nat
  fontBuffer : Nat
  variationAxes : List Nat
  variantId : String
deriving DecidableEq

/-- Record `GlyphRequest` from `types.ts`. -/
structure GlyphRequest where
  codePoint : Nat
  variantId : String
  fontBuffer : Nat
  variationAxes : List Nat
  renderSize : Nat
deriving DecidableEq

/-- Normalized UV coordinates, as rationals. -/
structure UVRect where
  u0 : ℚ
  v0 : ℚ
  u1 : ℚ
  v1 : ℚ
deriving DecidableEq

/-- Record `GlyphInfo` from `types.ts`: the client-facing view. -/
structure GlyphInfo where
  texture : Nat
  uvs : UVRect
  metrics : GlyphMetrics
  genSize : Nat
  cached : Bool
  empty : Bool
  missing : Bool
deriving DecidableEq

/-- The `FontAtlas` state: config, the keyed variant-atlas map (plus the
insertion-ordered key list standing in for JS `Map` iteration order), the
pending FIFO and the one-shot drain marker (`batchPromise !== null`). -/
structure FontAtlasState where
  config : AtlasConfig
  atlases : String → Option VariantAtlas
  atlasKeys : List String
  pendingGlyphs : List PendingGlyph
  batchScheduled : Bool

/-- A freshly constructed `FontAtlas`. -/
def FontAtlasState.init (config : AtlasConfig) : FontAtlasState :=
  { config := config, atlases := fun _ => none, atlasKeys := [],
    pendingGlyphs := [], batchScheduled := false }

/-- The variant-atlas map key `` `${variantId}_${genSize}` ``. -/
def atlasKey (variantId : String) (genSize : Nat) : String :=
  variantId ++ "_" ++ toString genSize

/-- Store a variant atlas under a key already present in the map. -/
def FontAtlasState.setAtlas (s : FontAtlasState) (key : String)
    (va : VariantAtlas) : FontAtlasState :=
  { s with atlases := fun k => if k = key then some va else s.atlases k }

/-- Method `selectGenSize(renderSize)`: first threshold `≥ renderSize` picks the
matching generation size; otherwise the last entry. -/
def selectGenSize (config : AtlasConfig) (renderSize : Nat) : Nat :=
  match config.sizeThresholds.findIdx? (fun t => renderSize ≤ t) with
  | some i => config.genSizes.getD i 0
  | none => config.genSizes.getD (config.genSizes.length - 1) 0

/-- Method `getOrCreateAtlas(variantId, genSize)`. -/
def FontAtlasState.getOrCreateAtlas (s : FontAtlasState) (variantId : String)
    (genSize : Nat) : VariantAtlas × FontAtlasState :=
  let key := atlasKey variantId genSize
  match s.atlases key with
  | some atlas => (atlas, s)
  | none =>
    let atlas := VariantAtlas.init variantId genSize s.config.pageSize s.config.maxMixedPages
    (atlas, { s.setAtlas key atlas with atlasKeys := s.atlasKeys ++ [key] })

/-- Method `locationToInfo(location, genSize, cached)`. -/
def locationToInfo (location : GlyphLocation) (genSize : Nat) (cached : Bool) :
    GlyphInfo :=
  { texture := location.page.texture,
    uvs := { u0 := (location.x : ℚ) / (location.page.width : ℚ),
             v0 := (location.y : ℚ) / (location.page.height : ℚ),
             u1 := ((location.x + location.width : Nat) : ℚ) / (location.page.width : ℚ),
             v1 := ((location.y + location.height : Nat) : ℚ) / (location.page.height : ℚ) },
    metrics := location.metrics, genSize := genSize, cached := cached,
    empty := location.empty, missing := location.missing }

/-- Method `queueGeneration(pending)`: push onto the FIFO and schedule a drain if
none is outstanding. -/
def FontAtlasState.queueGeneration (s : FontAtlasState) (pending : PendingGlyph) :
    FontAtlasState :=
  let s := { s with pendingGlyphs := s.pendingGlyphs ++ [pending] }
  if s.batchScheduled then s else { s with batchScheduled := true }

/-- Method `FontAtlas.getGlyph(request)`. -/
def FontAtlasState.getGlyph (s : FontAtlasState) (request : GlyphRequest) :
    GlyphInfo × FontAtlasState :=
  let genSize := selectGenSize s.config request.renderSize
  let r := s.getOrCreateAtlas request.variantId genSize
  let atlas := r.1
  let s := r.2
  match atlas.getGlyph request.codePoint with
  | some location => (locationToInfo location genSize true, s)
  | none =>
    let rr := atlas.reserveGlyph request.codePoint
    let s := s.setAtlas (atlasKey request.variantId genSize) rr.2
    let s := s.queueGeneration
      { codePoint := request.codePoint, genSize := genSize,
        fontBuffer := request.fontBuffer, variationAxes := request.variationAxes,
        variantId := request.variantId }
    (locationToInfo rr.1 genSize false, s)

/-- One iteration of the drain loop in `processBatch`: handle a single
pending entry. -/
def processEntry (msdf : Oracle) (s : FontAtlasState) (pending : PendingGlyph) :
    Option AtlasError × FontAtlasState :=
  let key := atlasKey pending.variantId pending.genSize
  let r := s.getOrCreateAtlas pending.variantId pending.genSize
  let atlas := r.1
  let s := r.2
  if msdf.hasGlyph pending.fontBuffer pending.codePoint = false then
    (none, s.setAtlas key (atlas.markEmpty pending.codePoint true))
  else
    match msdf.generate pending.fontBuffer pending.codePoint pending.genSize
        pending.variationAxes with
    | some glyph =>
      let f := atlas.fillGlyph pending.codePoint glyph.pixels (toGlyphMetrics glyph.metrics)
      (f.1, s.setAtlas key f.2)
    | none => (none, s.setAtlas key (atlas.markEmpty pending.codePoint false))

/-- The drain loop over the captured FIFO snapshot; a thrown error aborts the
remainder of the batch (the promise rejects). -/
def processList (msdf : Oracle) (s : FontAtlasState) :
    List PendingGlyph → Option AtlasError × FontAtlasState
  | [] => (none, s)
  | pending :: rest =>
    match processEntry msdf s pending with
    | (some e, s') => (some e, s')
    | (none, s') => processList msdf s' rest

/-- Flush the atlas stored at one key. -/
def flushAtlasAt (s : FontAtlasState) (key : String) : FontAtlasState :=
  match s.atlases key with
  | some va => s.setAtlas key va.flushDirtyPages
  | none => s

/-- The `for (const atlas of this.atlases.values()) atlas.flushDirtyPages()`
step of `processBatch`. -/
def flushAll (s : FontAtlasState) : FontAtlasState :=
  s.atlasKeys.foldl flushAtlasAt s

/-- Method `processBatch()`: snapshot and reset the FIFO, clear the drain marker,
return early when the snapshot is empty, otherwise process, flush and notify.
The `Nat` component counts `onGlyphsReady` invocations performed by this
drain. -/
def processBatch (msdf : Oracle) (s : FontAtlasState) :
    Option AtlasError × FontAtlasState × Nat :=
  let batch := s.pendingGlyphs
  let s := { s with pendingGlyphs := [], batchScheduled := false }
  if batch.isEmpty then (none, s, 0)
  else
    match processList msdf s batch with
    | (some e, s') => (some e, s', 0)
    | (none, s') => (none, flushAll s', 1)

/-- The per-code-point body of the `prefabLatin` loop. -/
def prefabStep (msdf : Oracle) (fontBuffer : Nat) (axes : List Nat) (genSize : Nat)
    (va : VariantAtlas) (codePoint : Nat) : Option AtlasError × VariantAtlas :=
  match va.getGlyph codePoint with
  | some _ => (none, va)
  | none =>
    if msdf.hasGlyph fontBuffer codePoint = false then
      (none, ((va.reserveGlyph codePoint).2.markEmpty codePoint true))
    else
      match msdf.generate fontBuffer codePoint genSize axes with
      | some glyph => va.addGlyph codePoint glyph.pixels (toGlyphMetrics glyph.metrics)
      | none => (none, ((va.reserveGlyph codePoint).2.markEmpty codePoint false))

/-- The `for (const codePoint of LATIN_CODEPOINTS)` loop of `prefabLatin`;
a thrown error propagates. -/
def prefabLoop (msdf : Oracle) (fontBuffer : Nat) (axes : List Nat) (genSize : Nat) :
    VariantAtlas → List Nat → Option AtlasError × VariantAtlas
  | va, [] => (none, va)
  | va, codePoint :: rest =>
    match prefabStep msdf fontBuffer axes genSize va codePoint with
    | (some e, va') => (some e, va')
    | (none, va') => prefabLoop msdf fontBuffer axes genSize va' rest

/-- Method `FontAtlas.prefabLatin(variantId, fontSize, fontBuffer, axes)`.  The `Nat`
component counts `onGlyphsReady` invocations (the source never invokes the
callback on this path). -/
def prefabLatin (msdf : Oracle) (s : FontAtlasState) (variantId : String)
    (fontSize : Nat) (fontBuffer : Nat) (axes : List Nat) :
    Option AtlasError × FontAtlasState × Nat :=
  let genSize := selectGenSize s.config fontSize
  let key := atlasKey variantId genSize
  let r := s.getOrCreateAtlas variantId genSize
  let atlas := r.1
  let s := r.2
  match prefabLoop msdf fontBuffer axes genSize atlas LATIN_CODEPOINTS with
  | (some e, atlas') => (some e, s.setAtlas key atlas', 0)
  | (none, atlas') => (none, s.setAtlas key atlas'.flushDirtyPages, 0)

/-- Method `hasPendingWork`. -/
def FontAtlasState.hasPendingWork (s : FontAtlasState) : Bool :=
  !s.pendingGlyphs.isEmpty || s.batchScheduled

/-- The location stored for `cp` in the atlas keyed `key`, if any. -/
def atlasIndexAt (s : FontAtlasState) (key : String) (codePoint : Nat) :
    Option GlyphLocation :=
  (s.atlases key).bind fun va => va.glyphIndex codePoint

/-- Whether `cp` is pending in the atlas keyed `key`. -/
def atlasPendingAt (s : FontAtlasState) (key : String) (codePoint : Nat) : Bool :=
  match s.atlases key with
  | some va => va.pendingGlyphs codePoint
  | none => false

/-- An atlas-level operation, as in the claim: reserve, fill, or add. -/
inductive AtlasOp where
  | reserve (codePoint : Nat)
  | fill (codePoint : Nat) (pixels : Nat → Nat) (metrics : GlyphMetrics)
  | add (codePoint : Nat) (pixels : Nat → Nat) (metrics : GlyphMetrics)

/-- Run one atlas operation (the state after a thrown error is the state at
the throw). -/
def applyOp (va : VariantAtlas) : AtlasOp → VariantAtlas
  | .reserve cp => (va.reserveGlyph cp).2
  | .fill cp px m => (va.fillGlyph cp px m).2
  | .add cp px m => (va.addGlyph cp px m).2

/-- The width-side condition forced by the counterexample: a fill/add glyph
must leave room for its 1-pixel gutter in a page row. -/
def opWidthOK (pageSize : Nat) : AtlasOp → Bool
  | .reserve _ => true
  | .fill _ _ m => m.width + 1 ≤ pageSize
  | .add _ _ m => m.width + 1 ≤ pageSize

/-- All pages of a variant atlas, Latin first. -/
def pagesOf (va : VariantAtlas) : List Page :=
  va.latinPage.toList ++ va.mixedPages

/-- A page selection that points at an existing page. -/
def selValid (va : VariantAtlas) : PageSel → Prop
  | .latin => va.latinPage.isSome = true
  | .mixed i => i < va.mixedPages.length

/-- The glyph rectangle recorded in a location lies inside its page. -/
def LocInBounds (loc : GlyphLocation) : Prop :=
  loc.x + loc.width ≤ loc.page.width ∧ loc.y + loc.height ≤ loc.page.height

/-- The invariant: page size recorded, every page square of that size, every
indexed location within its page. -/
def AtlasInv (va : VariantAtlas) (ps : Nat) : Prop :=
  va.pageSize = ps ∧
  (∀ p ∈ pagesOf va, p.width = ps ∧ p.height = ps) ∧
  (∀ cp loc, va.glyphIndex cp = some loc → LocInBounds loc)

/-- One destination-row segment of the blit: the byte range written for
source row `r`. -/
def rowSeg (x y w h W r : Nat) : Nat := ((y + (h - 1 - r)) * W + x) * 4

/-! ## Basic effect lemmas -/

theorem getGlyph_setPage (va : VariantAtlas) (sel : PageSel) (p : Page) (c : Nat) :
    (va.setPage sel p).getGlyph c = va.getGlyph c := by
  cases sel <;> rfl

theorem glyphIndex_setPage (va : VariantAtlas) (sel : PageSel) (p : Page) :
    (va.setPage sel p).glyphIndex = va.glyphIndex := by
  cases sel <;> rfl

theorem pendingGlyphs_setPage (va : VariantAtlas) (sel : PageSel) (p : Page) :
    (va.setPage sel p).pendingGlyphs = va.pendingGlyphs := by
  cases sel <;> rfl

theorem pageSize_setPage (va : VariantAtlas) (sel : PageSel) (p : Page) :
    (va.setPage sel p).pageSize = va.pageSize := by
  cases sel <;> rfl

theorem getOrCreatePage_frame (va : VariantAtlas) (isLatin : Bool) (gh : Nat) :
    ((va.getOrCreatePage isLatin gh).2).glyphIndex = va.glyphIndex ∧
    ((va.getOrCreatePage isLatin gh).2).pendingGlyphs = va.pendingGlyphs ∧
    ((va.getOrCreatePage isLatin gh).2).pageSize = va.pageSize ∧
    ((va.getOrCreatePage isLatin gh).2).genSize = va.genSize := by
  unfold VariantAtlas.getOrCreatePage VariantAtlas.createMixedPage
  cases isLatin <;> simp
  · cases h : va.mixedPages.findIdx? (fun page => page.cursorY + gh ≤ page.height) <;> simp
  · cases h : va.latinPage <;> simp

theorem getGlyph_getOrCreatePage (va : VariantAtlas) (isLatin : Bool) (gh : Nat) (c : Nat) :
    ((va.getOrCreatePage isLatin gh).2).getGlyph c = va.getGlyph c := by
  unfold VariantAtlas.getGlyph
  rw [(getOrCreatePage_frame va isLatin gh).1, (getOrCreatePage_frame va isLatin gh).2.1]

theorem getGlyph_createMixedPage (va : VariantAtlas) (c : Nat) :
    (va.createMixedPage.2).getGlyph c = va.getGlyph c := rfl

theorem getGlyph_markEmpty_other (va : VariantAtlas) (cp c : Nat) (m : Bool)
    (hne : c ≠ cp) : (va.markEmpty cp m).getGlyph c = va.getGlyph c := by
  unfold VariantAtlas.markEmpty VariantAtlas.getGlyph
  cases h : va.glyphIndex cp <;> simp [hne]

theorem getGlyph_markEmpty_self (va : VariantAtlas) (cp : Nat) (m : Bool) :
    ((va.markEmpty cp m).getGlyph cp).isSome = (va.glyphIndex cp).isSome := by
  unfold VariantAtlas.markEmpty VariantAtlas.getGlyph
  cases h : va.glyphIndex cp <;> simp [h]

theorem getGlyph_reserve_other (va : VariantAtlas) (cp c : Nat) (hne : c ≠ cp) :
    ((va.reserveGlyph cp).2).getGlyph c = va.getGlyph c := by
  unfold VariantAtlas.reserveGlyph VariantAtlas.getGlyph
  simp only [hne, if_false, if_neg hne]
  rw [(getOrCreatePage_frame va (isLatinChar cp) va.genSize).1,
      (getOrCreatePage_frame va (isLatinChar cp) va.genSize).2.1]

theorem glyphIndex_reserve_self (va : VariantAtlas) (cp : Nat) :
    ((va.reserveGlyph cp).2).glyphIndex cp = some (va.reserveGlyph cp).1 := by
  unfold VariantAtlas.reserveGlyph
  simp

theorem getGlyph_update_other (va : VariantAtlas) (cp c : Nat) (sel : PageSel)
    (pos : Nat × Nat) (m : GlyphMetrics) (hne : c ≠ cp) :
    (va.updateGlyphLocation cp sel pos m).getGlyph c = va.getGlyph c := by
  unfold VariantAtlas.updateGlyphLocation VariantAtlas.getGlyph
  cases h : va.glyphIndex cp <;> simp [hne]

theorem getGlyph_store_other (va : VariantAtlas) (cp c : Nat) (sel : PageSel)
    (pos : Nat × Nat) (m : GlyphMetrics) (hne : c ≠ cp) :
    (va.storeGlyph cp sel pos m).getGlyph c = va.getGlyph c := by
  unfold VariantAtlas.storeGlyph VariantAtlas.getGlyph
  simp [hne]

theorem getGlyph_store_self (va : VariantAtlas) (cp : Nat) (sel : PageSel)
    (pos : Nat × Nat) (m : GlyphMetrics) :
    ((va.storeGlyph cp sel pos m).getGlyph cp).isSome = true := by
  unfold VariantAtlas.storeGlyph VariantAtlas.getGlyph
  simp

theorem getGlyph_addGlyph_other (va : VariantAtlas) (cp c : Nat)
    (pixels : Nat → Nat) (m : GlyphMetrics) (hne : c ≠ cp) :
    ((va.addGlyph cp pixels m).2).getGlyph c = va.getGlyph c := by
  unfold VariantAtlas.addGlyph
  cases h : ((((va.getOrCreatePage (isLatinChar cp) m.height).2).pageAt
      (va.getOrCreatePage (isLatinChar cp) m.height).1).tryAdd pixels m.width m.height).1 <;>
    simp only [h] <;>
    repeat' split
  all_goals
    simp [getGlyph_store_other _ _ _ _ _ _ hne, getGlyph_setPage, getGlyph_getOrCreatePage,
          getGlyph_createMixedPage]

theorem getGlyph_addGlyph_self (va : VariantAtlas) (cp : Nat)
    (pixels : Nat → Nat) (m : GlyphMetrics)
    (hok : (va.addGlyph cp pixels m).1 = none) :
    (((va.addGlyph cp pixels m).2).getGlyph cp).isSome = true := by
  unfold VariantAtlas.addGlyph at *
  cases h : ((((va.getOrCreatePage (isLatinChar cp) m.height).2).pageAt
      (va.getOrCreatePage (isLatinChar cp) m.height).1).tryAdd pixels m.width m.height).1 <;>
    simp [h] at hok ⊢
  · split at hok
    · simp at hok
    · split at hok
      next heq => simp_all [getGlyph_store_self]
      next heq => simp at hok
  · simp [getGlyph_store_self]

theorem getGlyph_flushDirtyPages (va : VariantAtlas) (c : Nat) :
    (va.flushDirtyPages).getGlyph c = va.getGlyph c := rfl

/-! ## C4 — `Page.tryAdd` cursor discipline -/

/-- C4: `Page.tryAdd` for a `w×h` glyph uses `paddedW = w+1`, `paddedH = h+1`;
when `cursorX + paddedW > W` it advances the shelf
(`cursorY += rowHeight + 1; cursorX = 0; rowHeight = 0`); it returns `none`
exactly when, after any such advance, `cursorY + paddedH > H`; on success it
returns the pre-placement `(cursorX, cursorY)` and then sets
`cursorX += paddedW`, `rowHeight = max rowHeight paddedH`, `dirty = true`. -/
theorem tryAdd_shelf_spec (p : Page) (pixels : Nat → Nat) (w h : Nat) :
    (let cx0 : Nat := if p.width < p.cursorX + (w + 1) then 0 else p.cursorX
     let cy0 : Nat := if p.width < p.cursorX + (w + 1) then p.cursorY + p.rowHeight + 1 else p.cursorY
     let rh0 : Nat := if p.width < p.cursorX + (w + 1) then 0 else p.rowHeight
     ((p.tryAdd pixels w h).1 = none ↔ p.height < cy0 + (h + 1)) ∧
     (match (p.tryAdd pixels w h).1 with
      | none =>
        (p.tryAdd pixels w h).2.cursorX = cx0 ∧
        (p.tryAdd pixels w h).2.cursorY = cy0 ∧
        (p.tryAdd pixels w h).2.rowHeight = rh0 ∧
        (p.tryAdd pixels w h).2.dirty = p.dirty
      | some pos =>
        pos = (cx0, cy0) ∧
        (p.tryAdd pixels w h).2.cursorX = cx0 + (w + 1) ∧
        (p.tryAdd pixels w h).2.cursorY = cy0 ∧
        (p.tryAdd pixels w h).2.rowHeight = max rh0 (h + 1) ∧
        (p.tryAdd pixels w h).2.dirty = true)) := by
  unfold Page.tryAdd
  by_cases hA : p.width < p.cursorX + (w + 1) <;>
    simp only [hA, if_true, if_false, ite_true, ite_false]
  · by_cases hB : p.height < p.cursorY + p.rowHeight + 1 + (h + 1) <;> simp [hB]
  · by_cases hB : p.height < p.cursorY + (h + 1) <;> simp [hB]

/-! ## C10 — cache-miss placeholder info -/

/-- C10: whenever `FontAtlas.getGlyph` misses the cache (returns
`cached = false`), the returned info carries all-zero UVs, the all-zero
placeholder metrics, `empty = false` and `missing = false`. -/
theorem getGlyph_miss_placeholder (s : FontAtlasState) (request : GlyphRequest)
    (hmiss : ((s.getGlyph request).1).cached = false) :
    (s.getGlyph request).1.uvs = { u0 := 0, v0 := 0, u1 := 0, v1 := 0 } ∧
    (s.getGlyph request).1.metrics = PLACEHOLDER_METRICS ∧
    (s.getGlyph request).1.empty = false ∧
    (s.getGlyph request).1.missing = false := by
  unfold FontAtlasState.getGlyph at *
  cases h : ((s.getOrCreateAtlas request.variantId
      (selectGenSize s.config request.renderSize)).1).getGlyph request.codePoint
  · simp only [h] at hmiss ⊢
    unfold VariantAtlas.reserveGlyph locationToInfo
    simp
  · simp [h, locationToInfo] at hmiss

/-- Witness for C10 at a concrete fresh atlas and request. -/
theorem getGlyph_miss_placeholder_witness :
    (((FontAtlasState.init DEFAULT_CONFIG).getGlyph
        { codePoint := 65, variantId := "v", fontBuffer := 0, variationAxes := [],
          renderSize := 32 }).1).cached = false ∧
    ((((FontAtlasState.init DEFAULT_CONFIG).getGlyph
        { codePoint := 65, variantId := "v", fontBuffer := 0, variationAxes := [],
          renderSize := 32 }).1).uvs = { u0 := 0, v0 := 0, u1 := 0, v1 := 0 } ∧
     (((FontAtlasState.init DEFAULT_CONFIG).getGlyph
        { codePoint := 65, variantId := "v", fontBuffer := 0, variationAxes := [],
          renderSize := 32 }).1).metrics = PLACEHOLDER_METRICS ∧
     (((FontAtlasState.init DEFAULT_CONFIG).getGlyph
        { codePoint := 65, variantId := "v", fontBuffer := 0, variationAxes := [],
          renderSize := 32 }).1).empty = false ∧
     (((FontAtlasState.init DEFAULT_CONFIG).getGlyph
        { codePoint := 65, variantId := "v", fontBuffer := 0, variationAxes := [],
          renderSize := 32 }).1).missing = false) :=
  ⟨by decide, getGlyph_miss_placeholder _ _ (by decide)⟩

/-! ## C1 — re-request of a pending code point -/

/-- C1 counterexample: a repeated `getGlyph` for a code point that is still
pending returns placeholder info with `cached = false`, but it pushes a
second `PendingGlyph` onto the generation FIFO — the FIFO grows from length 1
to length 2 instead of staying unchanged. -/
theorem getGlyph_pending_rerequest_enqueues :
    (((FontAtlasState.init DEFAULT_CONFIG).getGlyph
        { codePoint := 19968, variantId := "v", fontBuffer := 0, variationAxes := [],
          renderSize := 32 }).2.pendingGlyphs).length = 1 ∧
    ((((FontAtlasState.init DEFAULT_CONFIG).getGlyph
        { codePoint := 19968, variantId := "v", fontBuffer := 0, variationAxes := [],
          renderSize := 32 }).2).getGlyph
        { codePoint := 19968, variantId := "v", fontBuffer := 0, variationAxes := [],
          renderSize := 32 }).1.cached = false ∧
    ((((FontAtlasState.init DEFAULT_CONFIG).getGlyph
        { codePoint := 19968, variantId := "v", fontBuffer := 0, variationAxes := [],
          renderSize := 32 }).2).getGlyph
        { codePoint := 19968, variantId := "v", fontBuffer := 0, variationAxes := [],
          renderSize := 32 }).2.pendingGlyphs.length = 2 :=
  ⟨by decide, by decide, by decide⟩

theorem queueGeneration_pending (s : FontAtlasState) (p : PendingGlyph) :
    (s.queueGeneration p).pendingGlyphs = s.pendingGlyphs ++ [p] := by
  unfold FontAtlasState.queueGeneration
  dsimp only
  split <;> rfl

theorem queueGeneration_atlases (s : FontAtlasState) (p : PendingGlyph) :
    (s.queueGeneration p).atlases = s.atlases := by
  unfold FontAtlasState.queueGeneration
  dsimp only
  split <;> rfl

theorem queueGeneration_config (s : FontAtlasState) (p : PendingGlyph) :
    (s.queueGeneration p).config = s.config := by
  unfold FontAtlasState.queueGeneration
  dsimp only
  split <;> rfl

theorem queueGeneration_batchScheduled (s : FontAtlasState) (p : PendingGlyph) :
    (s.queueGeneration p).batchScheduled = true := by
  unfold FontAtlasState.queueGeneration
  dsimp only
  split
  next h => exact h
  next => rfl

/-- C1 (amended): a repeated `getGlyph` for a pending code point returns
placeholder info with `cached = false` and leaves the variant atlas's pending
set unchanged, but it appends a second `PendingGlyph` for the same request to
the generation FIFO (the drain marker is set either way). -/
theorem getGlyph_pending_rerequest (s : FontAtlasState) (request : GlyphRequest)
    (hpend : atlasPendingAt s
        (atlasKey request.variantId (selectGenSize s.config request.renderSize))
        request.codePoint = true) :
    (s.getGlyph request).1.cached = false ∧
    (s.getGlyph request).1.metrics = PLACEHOLDER_METRICS ∧
    (s.getGlyph request).2.pendingGlyphs = s.pendingGlyphs ++
      [{ codePoint := request.codePoint,
         genSize := selectGenSize s.config request.renderSize,
         fontBuffer := request.fontBuffer, variationAxes := request.variationAxes,
         variantId := request.variantId }] ∧
    (∀ c, atlasPendingAt (s.getGlyph request).2
        (atlasKey request.variantId (selectGenSize s.config request.renderSize)) c =
      atlasPendingAt s
        (atlasKey request.variantId (selectGenSize s.config request.renderSize)) c) ∧
    (s.getGlyph request).2.batchScheduled = true := by
  unfold atlasPendingAt at hpend
  unfold FontAtlasState.getGlyph FontAtlasState.getOrCreateAtlas
  cases hva : s.atlases (atlasKey request.variantId (selectGenSize s.config request.renderSize))
  · rw [hva] at hpend; simp at hpend
  · rw [hva] at hpend
    simp only [] at hpend
    rename_i va
    have hg : va.getGlyph request.codePoint = none := by
      unfold VariantAtlas.getGlyph; rw [hpend]; simp
    simp only [hva, hg]
    refine ⟨?_, ?_, ?_, ?_, ?_⟩
    · unfold VariantAtlas.reserveGlyph locationToInfo; simp
    · unfold VariantAtlas.reserveGlyph locationToInfo; simp [PLACEHOLDER_METRICS]
    · rw [queueGeneration_pending]; rfl
    · intro c
      unfold atlasPendingAt
      rw [queueGeneration_atlases]
      unfold FontAtlasState.setAtlas
      dsimp only
      rw [if_pos rfl]
      simp only [hva]
      unfold VariantAtlas.reserveGlyph
      simp only []
      by_cases hc : c = request.codePoint
      · subst hc; simp [hpend]
      · simp only [if_neg hc]
        rw [(getOrCreatePage_frame va (isLatinChar request.codePoint) va.genSize).2.1]
    · rw [queueGeneration_batchScheduled]

/-- Witness for the amended C1: the state after one miss for U+4E00 has the
code point pending, and the theorem applies to the repeated request. -/
theorem getGlyph_pending_rerequest_witness :
    atlasPendingAt (((FontAtlasState.init DEFAULT_CONFIG).getGlyph
        { codePoint := 19968, variantId := "v", fontBuffer := 0, variationAxes := [],
          renderSize := 32 }).2)
      (atlasKey "v" (selectGenSize (((FontAtlasState.init DEFAULT_CONFIG).getGlyph
        { codePoint := 19968, variantId := "v", fontBuffer := 0, variationAxes := [],
          renderSize := 32 }).2).config 32)) 19968 = true ∧
    ((((FontAtlasState.init DEFAULT_CONFIG).getGlyph
        { codePoint := 19968, variantId := "v", fontBuffer := 0, variationAxes := [],
          renderSize := 32 }).2).getGlyph
        { codePoint := 19968, variantId := "v", fontBuffer := 0, variationAxes := [],
          renderSize := 32 }).1.cached = false :=
  ⟨by decide, (getGlyph_pending_rerequest _ _ (by decide)).1⟩

/-! ## C2 — placed rectangles lie inside their page -/

/-- C2 counterexample: a glyph wider than the page can still be placed.  On a
10×10 page, `tryAdd` of an 11×2 glyph advances the shelf (because
`cursorX + paddedW > W`), never re-checks the width, and returns position
`(0, 1)` — but `x + w = 11 > 10 = W`, so the placed rectangle is not inside
the page. -/
theorem tryAdd_wide_glyph_overflows :
    ((Page.new 10 10 0).tryAdd (fun _ => 0) 11 2).1 = some (0, 1) ∧
    ¬(0 + 11 ≤ (Page.new 10 10 0).width) :=
  ⟨by decide, by decide⟩

theorem tryAdd_dims (p : Page) (pixels : Nat → Nat) (w h : Nat) :
    ((p.tryAdd pixels w h).2).width = p.width ∧
    ((p.tryAdd pixels w h).2).height = p.height ∧
    ((p.tryAdd pixels w h).2).texture = p.texture := by
  unfold Page.tryAdd
  dsimp only
  split <;> split <;> simp

theorem tryAdd_pos_bounds (p : Page) (pixels : Nat → Nat) (w h x y : Nat)
    (hw : w + 1 ≤ p.width)
    (hpos : (p.tryAdd pixels w h).1 = some (x, y)) :
    x + w + 1 ≤ p.width ∧ y + h + 1 ≤ p.height := by
  unfold Page.tryAdd at hpos
  dsimp only at hpos
  by_cases hA : p.width < p.cursorX + (w + 1) <;>
    simp only [hA, if_true, if_false, ite_true, ite_false] at hpos <;>
    split at hpos <;> simp_all <;> omega

theorem pageAt_setPage_self (va : VariantAtlas) (sel : PageSel) (p : Page)
    (h : selValid va sel) : (va.setPage sel p).pageAt sel = p := by
  cases sel with
  | latin => simp [VariantAtlas.setPage, VariantAtlas.pageAt]
  | mixed i =>
    simp only [VariantAtlas.setPage, VariantAtlas.pageAt]
    simp [selValid] at h
    rw [List.getD_eq_getElem?_getD, List.getElem?_set_self h]
    rfl

theorem pagesOf_setPage (va : VariantAtlas) (sel : PageSel) (p q : Page)
    (hq : q ∈ pagesOf (va.setPage sel p)) : q = p ∨ q ∈ pagesOf va := by
  cases sel with
  | latin =>
    simp [VariantAtlas.setPage, pagesOf] at hq ⊢
    rcases hq with hq | hq
    · exact Or.inl hq
    · exact Or.inr (Or.inr hq)
  | mixed i =>
    simp [VariantAtlas.setPage, pagesOf] at hq ⊢
    rcases hq with hq | hq
    · cases h : va.latinPage <;> simp [h] at hq <;> simp [h]
      exact Or.inr (Or.inl hq)
    · rcases List.mem_or_eq_of_mem_set hq with h1 | h1
      · exact Or.inr (Or.inr h1)
      · exact Or.inl h1

theorem selValid_setPage (va : VariantAtlas) (sel sel' : PageSel) (p : Page)
    (h : selValid va sel) : selValid (va.setPage sel' p) sel := by
  cases sel <;> cases sel' <;> simp_all [selValid, VariantAtlas.setPage]

theorem pageAt_mem (va : VariantAtlas) (sel : PageSel) (h : selValid va sel) :
    va.pageAt sel ∈ pagesOf va := by
  cases sel with
  | latin =>
    simp [selValid, Option.isSome_iff_exists] at h
    obtain ⟨p, hp⟩ := h
    simp [VariantAtlas.pageAt, pagesOf, hp]
  | mixed i =>
    simp [selValid] at h
    simp [VariantAtlas.pageAt, pagesOf]
    right
    rw [List.getElem?_eq_getElem h]
    simpa using List.getElem_mem h

theorem getOrCreatePage_valid (va : VariantAtlas) (isLatin : Bool) (gh : Nat) :
    selValid (va.getOrCreatePage isLatin gh).2 (va.getOrCreatePage isLatin gh).1 := by
  unfold VariantAtlas.getOrCreatePage
  cases isLatin <;> simp
  · cases h : va.mixedPages.findIdx? (fun page => page.cursorY + gh ≤ page.height) with
    | none => simp [VariantAtlas.createMixedPage, selValid]
    | some i =>
      simp [selValid]
      exact (List.findIdx?_eq_some_iff_getElem.mp h).1
  · cases h : va.latinPage <;> simp [h, selValid]

theorem getOrCreatePage_pages (va : VariantAtlas) (isLatin : Bool) (gh : Nat)
    (ps : Nat) (hps : va.pageSize = ps)
    (hdims : ∀ p ∈ pagesOf va, p.width = ps ∧ p.height = ps) :
    ∀ p ∈ pagesOf (va.getOrCreatePage isLatin gh).2, p.width = ps ∧ p.height = ps := by
  unfold VariantAtlas.getOrCreatePage
  cases isLatin <;> simp
  · cases h : va.mixedPages.findIdx? (fun page => page.cursorY + gh ≤ page.height) with
    | none =>
      intro p hp
      simp [VariantAtlas.createMixedPage, pagesOf] at hp
      rcases hp with hp | hp | hp
      · exact hdims p (by simp [pagesOf, hp])
      · exact hdims p (by simp [pagesOf]; right; exact hp)
      · subst hp; simp [Page.new, hps]
    | some i => simpa using hdims
  · cases h : va.latinPage with
    | some p0 => simpa using hdims
    | none =>
      intro p hp
      simp [pagesOf] at hp
      rcases hp with hp | hp
      · subst hp; simp [Page.new, hps]
      · exact hdims p (by simp [pagesOf, h]; exact hp)

theorem updateGlyphLocation_frame (va : VariantAtlas) (cp : Nat) (sel : PageSel)
    (pos : Nat × Nat) (m : GlyphMetrics) :
    (va.updateGlyphLocation cp sel pos m).pageSize = va.pageSize ∧
    (va.updateGlyphLocation cp sel pos m).latinPage = va.latinPage ∧
    (va.updateGlyphLocation cp sel pos m).mixedPages = va.mixedPages := by
  unfold VariantAtlas.updateGlyphLocation
  cases h : va.glyphIndex cp <;> simp

theorem storeGlyph_frame (va : VariantAtlas) (cp : Nat) (sel : PageSel)
    (pos : Nat × Nat) (m : GlyphMetrics) :
    (va.storeGlyph cp sel pos m).pageSize = va.pageSize ∧
    (va.storeGlyph cp sel pos m).latinPage = va.latinPage ∧
    (va.storeGlyph cp sel pos m).mixedPages = va.mixedPages := by
  unfold VariantAtlas.storeGlyph
  simp

theorem updateGlyphLocation_bounds (va : VariantAtlas) (cp : Nat) (sel : PageSel)
    (pos : Nat × Nat) (m : GlyphMetrics)
    (hold : ∀ cp' loc', va.glyphIndex cp' = some loc' → LocInBounds loc')
    (hx : pos.1 + m.width ≤ (va.pageAt sel).width)
    (hy : pos.2 + m.height ≤ (va.pageAt sel).height) :
    ∀ cp' loc', (va.updateGlyphLocation cp sel pos m).glyphIndex cp' = some loc' →
      LocInBounds loc' := by
  unfold VariantAtlas.updateGlyphLocation
  cases h : va.glyphIndex cp with
  | none => simpa using hold
  | some loc0 =>
    intro cp' loc' hloc'
    simp only [] at hloc'
    by_cases hc : cp' = cp
    · subst hc
      simp only [if_pos rfl] at hloc'
      cases hloc'
      exact ⟨hx, hy⟩
    · simp only [if_neg hc] at hloc'
      exact hold cp' loc' hloc'

theorem storeGlyph_bounds (va : VariantAtlas) (cp : Nat) (sel : PageSel)
    (pos : Nat × Nat) (m : GlyphMetrics)
    (hold : ∀ cp' loc', va.glyphIndex cp' = some loc' → LocInBounds loc')
    (hx : pos.1 + m.width ≤ (va.pageAt sel).width)
    (hy : pos.2 + m.height ≤ (va.pageAt sel).height) :
    ∀ cp' loc', (va.storeGlyph cp sel pos m).glyphIndex cp' = some loc' →
      LocInBounds loc' := by
  unfold VariantAtlas.storeGlyph
  intro cp' loc' hloc'
  simp only [] at hloc'
  by_cases hc : cp' = cp
  · subst hc
    simp only [if_pos rfl] at hloc'
    cases hloc'
    exact ⟨hx, hy⟩
  · simp only [if_neg hc] at hloc'
    exact hold cp' loc' hloc'

theorem createMixedPage_frame (va : VariantAtlas) :
    (va.createMixedPage.2).pageSize = va.pageSize ∧
    (va.createMixedPage.2).glyphIndex = va.glyphIndex ∧
    (va.createMixedPage.2).latinPage = va.latinPage ∧
    (va.createMixedPage.2).mixedPages =
      va.mixedPages ++ [Page.new va.pageSize va.pageSize va.nextTex] := by
  unfold VariantAtlas.createMixedPage
  simp

theorem createMixedPage_pageAt (va : VariantAtlas) :
    (va.createMixedPage.2).pageAt (.mixed va.createMixedPage.1) =
      Page.new va.pageSize va.pageSize va.nextTex := by
  unfold VariantAtlas.createMixedPage VariantAtlas.pageAt
  simp

theorem createMixedPage_valid (va : VariantAtlas) :
    selValid va.createMixedPage.2 (.mixed va.createMixedPage.1) := by
  unfold VariantAtlas.createMixedPage
  simp [selValid]

theorem reserveGlyph_inv (va : VariantAtlas) (cp : Nat) (ps : Nat)
    (hInv : AtlasInv va ps) : AtlasInv (va.reserveGlyph cp).2 ps := by
  obtain ⟨h1, h2, h3⟩ := hInv
  unfold VariantAtlas.reserveGlyph
  simp only []
  refine ⟨?_, ?_, ?_⟩
  · rw [(getOrCreatePage_frame va (isLatinChar cp) va.genSize).2.2.1]; exact h1
  · intro p hp
    simp only [pagesOf] at hp
    exact getOrCreatePage_pages va (isLatinChar cp) va.genSize ps h1 h2 p hp
  · intro cp' loc' hloc'
    simp only [] at hloc'
    by_cases hc : cp' = cp
    · subst hc
      simp only [if_pos rfl] at hloc'
      cases hloc'
      exact ⟨Nat.le_add_left _ _, Nat.le_add_left _ _⟩
    · simp only [if_neg hc] at hloc'
      rw [(getOrCreatePage_frame va (isLatinChar cp) va.genSize).1] at hloc'
      exact h3 cp' loc' hloc'

theorem fillGlyph_inv (va : VariantAtlas) (cp : Nat) (px : Nat → Nat)
    (m : GlyphMetrics) (ps : Nat) (hInv : AtlasInv va ps)
    (hw : m.width + 1 ≤ ps) : AtlasInv (va.fillGlyph cp px m).2 ps := by
  obtain ⟨h1, h2, h3⟩ := hInv
  unfold VariantAtlas.fillGlyph
  simp only []
  set sel := (va.getOrCreatePage (isLatinChar cp) m.height).1 with hsel
  set va1 := (va.getOrCreatePage (isLatinChar cp) m.height).2 with hva1
  have hv1 : selValid va1 sel := getOrCreatePage_valid _ _ _
  have hps1 : va1.pageSize = ps := by
    rw [hva1, (getOrCreatePage_frame va (isLatinChar cp) m.height).2.2.1]; exact h1
  have hidx1 : va1.glyphIndex = va.glyphIndex :=
    (getOrCreatePage_frame va (isLatinChar cp) m.height).1
  have hdims1 : ∀ p ∈ pagesOf va1, p.width = ps ∧ p.height = ps :=
    getOrCreatePage_pages va (isLatinChar cp) m.height ps h1 h2
  have hpage_dims : (va1.pageAt sel).width = ps ∧ (va1.pageAt sel).height = ps :=
    hdims1 _ (pageAt_mem va1 sel hv1)
  set t := (va1.pageAt sel).tryAdd px m.width m.height with ht
  set va2 := va1.setPage sel t.2 with hva2
  have hps2 : va2.pageSize = ps := by rw [hva2, pageSize_setPage]; exact hps1
  have hidx2 : va2.glyphIndex = va.glyphIndex := by
    rw [hva2, glyphIndex_setPage]; exact hidx1
  have htdims : t.2.width = ps ∧ t.2.height = ps := by
    rw [ht]
    exact ⟨(tryAdd_dims _ px m.width m.height).1.trans hpage_dims.1,
           (tryAdd_dims _ px m.width m.height).2.1.trans hpage_dims.2⟩
  have hdims2 : ∀ p ∈ pagesOf va2, p.width = ps ∧ p.height = ps := by
    intro p hp
    rcases pagesOf_setPage va1 sel t.2 p hp with h | h
    · subst h; exact htdims
    · exact hdims1 p h
  have hv2 : selValid va2 sel := selValid_setPage va1 sel sel t.2 hv1
  have hpa2 : va2.pageAt sel = t.2 := pageAt_setPage_self va1 sel t.2 hv1
  cases htt : t.1 with
  | some pos =>
    simp only [htt]
    have hb := tryAdd_pos_bounds (va1.pageAt sel) px m.width m.height pos.1 pos.2
      (by rw [hpage_dims.1]; exact hw) (by rw [← ht, htt])
    refine ⟨?_, ?_, ?_⟩
    · rw [(updateGlyphLocation_frame va2 cp sel pos m).1]; exact hps2
    · intro p hp
      have hpg : pagesOf (va2.updateGlyphLocation cp sel pos m) = pagesOf va2 := by
        unfold pagesOf
        rw [(updateGlyphLocation_frame va2 cp sel pos m).2.1,
            (updateGlyphLocation_frame va2 cp sel pos m).2.2]
      rw [hpg] at hp
      exact hdims2 p hp
    · refine updateGlyphLocation_bounds va2 cp sel pos m ?_ ?_ ?_
      · rw [hidx2]; exact h3
      · rw [hpa2, htdims.1]; omega
      · rw [hpa2, htdims.2]; omega
  | none =>
    simp only [htt]
    split
    · exact ⟨hps2, hdims2, by rw [hidx2]; exact h3⟩
    · set j := va2.createMixedPage.1 with hj
      set va3 := va2.createMixedPage.2 with hva3
      have hps3 : va3.pageSize = ps := by
        rw [hva3, (createMixedPage_frame va2).1]; exact hps2
      have hidx3 : va3.glyphIndex = va.glyphIndex := by
        rw [hva3, (createMixedPage_frame va2).2.1]; exact hidx2
      have hdims3 : ∀ p ∈ pagesOf va3, p.width = ps ∧ p.height = ps := by
        intro p hp
        rw [hva3] at hp
        unfold pagesOf at hp
        rw [(createMixedPage_frame va2).2.2.1, (createMixedPage_frame va2).2.2.2] at hp
        simp only [List.append_assoc, List.mem_append, List.mem_singleton] at hp
        rcases hp with hp | hp | hp
        · exact hdims2 p (by unfold pagesOf; simp [hp])
        · exact hdims2 p (by unfold pagesOf; simp [hp])
        · subst hp; simp [Page.new, hps2]
      have hv3 : selValid va3 (.mixed j) := by rw [hva3, hj]; exact createMixedPage_valid va2
      have hpa3 : va3.pageAt (.mixed j) = Page.new va2.pageSize va2.pageSize va2.nextTex := by
        rw [hva3, hj]; exact createMixedPage_pageAt va2
      set t2 := (va3.pageAt (.mixed j)).tryAdd px m.width m.height with ht2
      set va4 := va3.setPage (.mixed j) t2.2 with hva4
      have hps4 : va4.pageSize = ps := by rw [hva4, pageSize_setPage]; exact hps3
      have hidx4 : va4.glyphIndex = va.glyphIndex := by
        rw [hva4, glyphIndex_setPage]; exact hidx3
      have ht2dims : t2.2.width = ps ∧ t2.2.height = ps := by
        rw [ht2]
        constructor
        · rw [(tryAdd_dims _ px m.width m.height).1, hpa3]; simp [Page.new, hps2]
        · rw [(tryAdd_dims _ px m.width m.height).2.1, hpa3]; simp [Page.new, hps2]
      have hdims4 : ∀ p ∈ pagesOf va4, p.width = ps ∧ p.height = ps := by
        intro p hp
        rcases pagesOf_setPage va3 (.mixed j) t2.2 p hp with h | h
        · subst h; exact ht2dims
        · exact hdims3 p h
      have hv4 : selValid va4 (.mixed j) := selValid_setPage va3 _ _ t2.2 hv3
      have hpa4 : va4.pageAt (.mixed j) = t2.2 := pageAt_setPage_self va3 _ t2.2 hv3
      cases htt2 : t2.1 with
      | some pos2 =>
        simp only [htt2]
        have hb2 := tryAdd_pos_bounds (va3.pageAt (.mixed j)) px m.width m.height pos2.1 pos2.2
          (by rw [hpa3]; simpa [Page.new, hps2] using hw) (by rw [← ht2, htt2])
        rw [hpa3] at hb2
        simp only [Page.new] at hb2
        refine ⟨?_, ?_, ?_⟩
        · rw [(updateGlyphLocation_frame va4 cp (.mixed j) pos2 m).1]; exact hps4
        · intro p hp
          have hpg : pagesOf (va4.updateGlyphLocation cp (.mixed j) pos2 m) = pagesOf va4 := by
            unfold pagesOf
            rw [(updateGlyphLocation_frame va4 cp (.mixed j) pos2 m).2.1,
                (updateGlyphLocation_frame va4 cp (.mixed j) pos2 m).2.2]
          rw [hpg] at hp
          exact hdims4 p hp
        · refine updateGlyphLocation_bounds va4 cp (.mixed j) pos2 m ?_ ?_ ?_
          · rw [hidx4]; exact h3
          · rw [hpa4, ht2dims.1]
            have := hps2
            omega
          · rw [hpa4, ht2dims.2]
            have := hps2
            omega
      | none =>
        simp only [htt2]
        exact ⟨hps4, hdims4, by rw [hidx4]; exact h3⟩

theorem addGlyph_inv (va : VariantAtlas) (cp : Nat) (px : Nat → Nat)
    (m : GlyphMetrics) (ps : Nat) (hInv : AtlasInv va ps)
    (hw : m.width + 1 ≤ ps) : AtlasInv (va.addGlyph cp px m).2 ps := by
  obtain ⟨h1, h2, h3⟩ := hInv
  unfold VariantAtlas.addGlyph
  simp only []
  set sel := (va.getOrCreatePage (isLatinChar cp) m.height).1 with hsel
  set va1 := (va.getOrCreatePage (isLatinChar cp) m.height).2 with hva1
  have hv1 : selValid va1 sel := getOrCreatePage_valid _ _ _
  have hps1 : va1.pageSize = ps := by
    rw [hva1, (getOrCreatePage_frame va (isLatinChar cp) m.height).2.2.1]; exact h1
  have hidx1 : va1.glyphIndex = va.glyphIndex :=
    (getOrCreatePage_frame va (isLatinChar cp) m.height).1
  have hdims1 : ∀ p ∈ pagesOf va1, p.width = ps ∧ p.height = ps :=
    getOrCreatePage_pages va (isLatinChar cp) m.height ps h1 h2
  have hpage_dims : (va1.pageAt sel).width = ps ∧ (va1.pageAt sel).height = ps :=
    hdims1 _ (pageAt_mem va1 sel hv1)
  set t := (va1.pageAt sel).tryAdd px m.width m.height with ht
  set va2 := va1.setPage sel t.2 with hva2
  have hps2 : va2.pageSize = ps := by rw [hva2, pageSize_setPage]; exact hps1
  have hidx2 : va2.glyphIndex = va.glyphIndex := by
    rw [hva2, glyphIndex_setPage]; exact hidx1
  have htdims : t.2.width = ps ∧ t.2.height = ps := by
    rw [ht]
    exact ⟨(tryAdd_dims _ px m.width m.height).1.trans hpage_dims.1,
           (tryAdd_dims _ px m.width m.height).2.1.trans hpage_dims.2⟩
  have hdims2 : ∀ p ∈ pagesOf va2, p.width = ps ∧ p.height = ps := by
    intro p hp
    rcases pagesOf_setPage va1 sel t.2 p hp with h | h
    · subst h; exact htdims
    · exact hdims1 p h
  have hv2 : selValid va2 sel := selValid_setPage va1 sel sel t.2 hv1
  have hpa2 : va2.pageAt sel = t.2 := pageAt_setPage_self va1 sel t.2 hv1
  cases htt : t.1 with
  | some pos =>
    simp only [htt]
    have hb := tryAdd_pos_bounds (va1.pageAt sel) px m.width m.height pos.1 pos.2
      (by rw [hpage_dims.1]; exact hw) (by rw [← ht, htt])
    refine ⟨?_, ?_, ?_⟩
    · rw [(storeGlyph_frame va2 cp sel pos m).1]; exact hps2
    · intro p hp
      have hpg : pagesOf (va2.storeGlyph cp sel pos m) = pagesOf va2 := by
        unfold pagesOf
        rw [(storeGlyph_frame va2 cp sel pos m).2.1,
            (storeGlyph_frame va2 cp sel pos m).2.2]
      rw [hpg] at hp
      exact hdims2 p hp
    · refine storeGlyph_bounds va2 cp sel pos m ?_ ?_ ?_
      · rw [hidx2]; exact h3
      · rw [hpa2, htdims.1]; omega
      · rw [hpa2, htdims.2]; omega
  | none =>
    simp only [htt]
    split
    · exact ⟨hps2, hdims2, by rw [hidx2]; exact h3⟩
    · set j := va2.createMixedPage.1 with hj
      set va3 := va2.createMixedPage.2 with hva3
      have hps3 : va3.pageSize = ps := by
        rw [hva3, (createMixedPage_frame va2).1]; exact hps2
      have hidx3 : va3.glyphIndex = va.glyphIndex := by
        rw [hva3, (createMixedPage_frame va2).2.1]; exact hidx2
      have hdims3 : ∀ p ∈ pagesOf va3, p.width = ps ∧ p.height = ps := by
        intro p hp
        rw [hva3] at hp
        unfold pagesOf at hp
        rw [(createMixedPage_frame va2).2.2.1, (createMixedPage_frame va2).2.2.2] at hp
        simp only [List.append_assoc, List.mem_append, List.mem_singleton] at hp
        rcases hp with hp | hp | hp
        · exact hdims2 p (by unfold pagesOf; simp [hp])
        · exact hdims2 p (by unfold pagesOf; simp [hp])
        · subst hp; simp [Page.new, hps2]
      have hv3 : selValid va3 (.mixed j) := by rw [hva3, hj]; exact createMixedPage_valid va2
      have hpa3 : va3.pageAt (.mixed j) = Page.new va2.pageSize va2.pageSize va2.nextTex := by
        rw [hva3, hj]; exact createMixedPage_pageAt va2
      set t2 := (va3.pageAt (.mixed j)).tryAdd px m.width m.height with ht2
      set va4 := va3.setPage (.mixed j) t2.2 with hva4
      have hps4 : va4.pageSize = ps := by rw [hva4, pageSize_setPage]; exact hps3
      have hidx4 : va4.glyphIndex = va.glyphIndex := by
        rw [hva4, glyphIndex_setPage]; exact hidx3
      have ht2dims : t2.2.width = ps ∧ t2.2.height = ps := by
        rw [ht2]
        constructor
        · rw [(tryAdd_dims _ px m.width m.height).1, hpa3]; simp [Page.new, hps2]
        · rw [(tryAdd_dims _ px m.width m.height).2.1, hpa3]; simp [Page.new, hps2]
      have hdims4 : ∀ p ∈ pagesOf va4, p.width = ps ∧ p.height = ps := by
        intro p hp
        rcases pagesOf_setPage va3 (.mixed j) t2.2 p hp with h | h
        · subst h; exact ht2dims
        · exact hdims3 p h
      have hv4 : selValid va4 (.mixed j) := selValid_setPage va3 _ _ t2.2 hv3
      have hpa4 : va4.pageAt (.mixed j) = t2.2 := pageAt_setPage_self va3 _ t2.2 hv3
      cases htt2 : t2.1 with
      | some pos2 =>
        simp only [htt2]
        have hb2 := tryAdd_pos_bounds (va3.pageAt (.mixed j)) px m.width m.height pos2.1 pos2.2
          (by rw [hpa3]; simpa [Page.new, hps2] using hw) (by rw [← ht2, htt2])
        rw [hpa3] at hb2
        simp only [Page.new] at hb2
        refine ⟨?_, ?_, ?_⟩
        · rw [(storeGlyph_frame va4 cp (.mixed j) pos2 m).1]; exact hps4
        · intro p hp
          have hpg : pagesOf (va4.storeGlyph cp (.mixed j) pos2 m) = pagesOf va4 := by
            unfold pagesOf
            rw [(storeGlyph_frame va4 cp (.mixed j) pos2 m).2.1,
                (storeGlyph_frame va4 cp (.mixed j) pos2 m).2.2]
          rw [hpg] at hp
          exact hdims4 p hp
        · refine storeGlyph_bounds va4 cp (.mixed j) pos2 m ?_ ?_ ?_
          · rw [hidx4]; exact h3
          · rw [hpa4, ht2dims.1]
            have := hps2
            omega
          · rw [hpa4, ht2dims.2]
            have := hps2
            omega
      | none =>
        simp only [htt2]
        exact ⟨hps4, hdims4, by rw [hidx4]; exact h3⟩

theorem foldl_applyOp_inv (ops : List AtlasOp) (va : VariantAtlas) (ps : Nat)
    (hInv : AtlasInv va ps) (hops : ∀ op ∈ ops, opWidthOK ps op = true) :
    AtlasInv (ops.foldl applyOp va) ps := by
  induction ops generalizing va with
  | nil => exact hInv
  | cons op rest ih =>
    simp only [List.foldl_cons]
    refine ih (applyOp va op) ?_ (fun o ho => hops o (List.mem_cons_of_mem _ ho))
    have hop := hops op (List.mem_cons_self _ _)
    cases op with
    | reserve cp => exact reserveGlyph_inv va cp ps hInv
    | fill cp px m =>
      exact fillGlyph_inv va cp px m ps hInv (by simpa [opWidthOK] using hop)
    | add cp px m =>
      exact addGlyph_inv va cp px m ps hInv (by simpa [opWidthOK] using hop)

/-- C2 (amended): after any sequence of `reserveGlyph` / `fillGlyph` /
`addGlyph` operations on a fresh variant atlas in which every filled glyph
satisfies `width + 1 ≤ pageSize` (the side condition forced by the wide-glyph
counterexample), every recorded rectangle `(x, y, x+w, y+h)` lies within
`(0, 0, pageWidth, pageHeight)` of its page; and whenever `Page.tryAdd`
returns a position for a glyph with `w + 1 ≤ W`, the placed rectangle lies
fully inside the page. -/
theorem atlas_rects_in_bounds (variantId : String)
    (genSize pageSize maxMixedPages : Nat) (ops : List AtlasOp)
    (hops : ∀ op ∈ ops, opWidthOK pageSize op = true)
    (cp : Nat) (loc : GlyphLocation)
    (hloc : (ops.foldl applyOp
        (VariantAtlas.init variantId genSize pageSize maxMixedPages)).glyphIndex cp = some loc)
    (q : Page) (qpixels : Nat → Nat) (w h x y : Nat) (hqw : w + 1 ≤ q.width)
    (hq : (q.tryAdd qpixels w h).1 = some (x, y)) :
    (loc.x + loc.width ≤ loc.page.width ∧ loc.y + loc.height ≤ loc.page.height) ∧
    (x + w ≤ q.width ∧ y + h ≤ q.height) := by
  constructor
  · have hInv0 : AtlasInv (VariantAtlas.init variantId genSize pageSize maxMixedPages) pageSize := by
      refine ⟨rfl, ?_, ?_⟩
      · intro p hp; simp [pagesOf, VariantAtlas.init] at hp
      · intro cp' loc' h; simp [VariantAtlas.init] at h
    exact (foldl_applyOp_inv ops _ pageSize hInv0 hops).2.2 cp loc hloc
  · have := tryAdd_pos_bounds q qpixels w h x y hqw hq
    omega

/-- Witness for the amended C2 at a concrete reserve-then-fill sequence on a
4-pixel page and a concrete successful `tryAdd`. -/
theorem atlas_rects_in_bounds_witness :
    (∀ op ∈ [AtlasOp.reserve 200,
             AtlasOp.fill 200 (fun _ => 0)
               { width := 1, height := 3, advance := 1, xOffset := 0, yOffset := 0,
                 planeBounds := { l := 0, b := 0, r := 0, t := 0 } }],
        opWidthOK 4 op = true) ∧
    (([AtlasOp.reserve 200,
       AtlasOp.fill 200 (fun _ => 0)
         { width := 1, height := 3, advance := 1, xOffset := 0, yOffset := 0,
           planeBounds := { l := 0, b := 0, r := 0, t := 0 } }].foldl applyOp
        (VariantAtlas.init "v" 3 4 8)).glyphIndex 200 =
      some { page := { texture := 0, width := 4, height := 4 }, x := 0, y := 0,
             width := 1, height := 3,
             metrics := { width := 1, height := 3, advance := 1, xOffset := 0, yOffset := 0,
                          planeBounds := { l := 0, b := 0, r := 0, t := 0 } },
             empty := false, missing := false }) ∧
    2 + 1 ≤ (Page.new 10 10 0).width ∧
    ((Page.new 10 10 0).tryAdd (fun _ => 0) 2 1).1 = some (0, 0) ∧
    ((0 + 0 + 1 ≤ 4 ∧ 0 + 3 ≤ 4) ∧ (0 + 2 ≤ (Page.new 10 10 0).width ∧ 0 + 1 ≤ (Page.new 10 10 0).height)) := by
  refine ⟨?_, ?_, ?_, ?_, ?_⟩
  · intro op hop
    fin_cases hop <;> decide
  · decide
  · decide
  · decide
  · have := atlas_rects_in_bounds "v" 3 4 8
      [AtlasOp.reserve 200,
       AtlasOp.fill 200 (fun _ => 0)
         { width := 1, height := 3, advance := 1, xOffset := 0, yOffset := 0,
           planeBounds := { l := 0, b := 0, r := 0, t := 0 } }]
      (by intro op hop; fin_cases hop <;> decide) 200
      { page := { texture := 0, width := 4, height := 4 }, x := 0, y := 0,
        width := 1, height := 3,
        metrics := { width := 1, height := 3, advance := 1, xOffset := 0, yOffset := 0,
                     planeBounds := { l := 0, b := 0, r := 0, t := 0 } },
        empty := false, missing := false }
      (by decide) (Page.new 10 10 0) (fun _ => 0) 2 1 0 0 (by decide) (by decide)
    exact ⟨⟨by omega, this.1.2⟩, this.2⟩

/-! ## C3 — reservation texture vs. fill texture -/

/-- C3 counterexample: the texture handed out at reservation time is *not*
always the page the pixels land on.  On a 4-pixel atlas, U+4E00 (1×3) fills
page 0; reserving U+4E01 returns a location on page 0 (texture 0), but its
3×3 fill does not fit page 0 any more, so `fillGlyph` allocates a fresh mixed
page and relocates the glyph to texture 1. -/
theorem reserve_fill_texture_changes :
    (let va0 := VariantAtlas.init "v" 3 4 8
     let m13 : GlyphMetrics :=
       { width := 1, height := 3, advance := 1, xOffset := 0, yOffset := 0,
         planeBounds := { l := 0, b := 0, r := 0, t := 0 } }
     let m33 : GlyphMetrics :=
       { width := 3, height := 3, advance := 3, xOffset := 0, yOffset := 0,
         planeBounds := { l := 0, b := 0, r := 0, t := 0 } }
     let va1 := ((va0.reserveGlyph 19968).2.fillGlyph 19968 (fun _ => 0) m13).2
     let r2 := va1.reserveGlyph 19969
     let f2 := r2.2.fillGlyph 19969 (fun _ => 0) m33
     r2.1.page.texture = 0 ∧ f2.1 = none ∧
     (f2.2.glyphIndex 19969).map (fun loc => loc.page.texture) = some 1) := by
  refine ⟨by decide, by decide, by decide⟩

theorem reserveGlyph_latin (va : VariantAtlas) (cp : Nat)
    (hl : isLatinChar cp = true) :
    ∃ p, ((va.reserveGlyph cp).2).latinPage = some p ∧
      (va.reserveGlyph cp).1.page.texture = p.texture := by
  unfold VariantAtlas.reserveGlyph VariantAtlas.getOrCreatePage
  rw [hl]
  cases hlp : va.latinPage with
  | some p0 =>
    refine ⟨p0, ?_, ?_⟩ <;> simp [VariantAtlas.pageAt, hlp]
  | none =>
    refine ⟨Page.new va.pageSize va.pageSize va.nextTex, ?_, ?_⟩ <;>
      simp [VariantAtlas.pageAt]

theorem fillGlyph_latin_texture (va : VariantAtlas) (cp : Nat)
    (hl : isLatinChar cp = true) (pixels : Nat → Nat) (m : GlyphMetrics)
    (p : Page) (hlp : va.latinPage = some p)
    (hok : (va.fillGlyph cp pixels m).1 = none) (loc : GlyphLocation)
    (hloc : ((va.fillGlyph cp pixels m).2).glyphIndex cp = some loc) :
    loc.page.texture = p.texture := by
  unfold VariantAtlas.fillGlyph VariantAtlas.getOrCreatePage at hok hloc
  rw [hl, hlp] at hok hloc
  simp only [if_true, ite_true] at hok hloc
  have hpa : va.pageAt PageSel.latin = p := by simp [VariantAtlas.pageAt, hlp]
  rw [hpa] at hok hloc
  cases htt : (p.tryAdd pixels m.width m.height).1 with
  | none => rw [htt] at hok; simp [hl] at hok
  | some pos =>
    rw [htt] at hloc
    simp only [] at hloc
    unfold VariantAtlas.updateGlyphLocation at hloc
    have hpa2 : (va.setPage PageSel.latin (p.tryAdd pixels m.width m.height).2).pageAt
        PageSel.latin = (p.tryAdd pixels m.width m.height).2 := by
      simp [VariantAtlas.setPage, VariantAtlas.pageAt]
    rw [hpa2] at hloc
    rw [glyphIndex_setPage] at hloc
    cases hgi : va.glyphIndex cp with
    | none =>
      rw [hgi] at hloc
      simp only [] at hloc
      rw [glyphIndex_setPage, hgi] at hloc
      cases hloc
    | some loc0 =>
      rw [hgi] at hloc
      simp only [if_pos rfl] at hloc
      cases hloc
      simp [(tryAdd_dims p pixels m.width m.height).2.2]

/-- C3 (amended): for a *Latin* code point, reserve-then-fill keeps the
texture handle: both operations use the single Latin page, so when the fill
succeeds the stored location's texture equals the one returned at
reservation.  (For non-Latin code points the fill may select or allocate a
different mixed page and the location's texture is updated to the page that
actually hosts the glyph, as the counterexample shows.) -/
theorem reserve_fill_texture_stable_latin (va : VariantAtlas) (cp : Nat)
    (hl : isLatinChar cp = true) (pixels : Nat → Nat) (m : GlyphMetrics)
    (loc : GlyphLocation)
    (hok : (((va.reserveGlyph cp).2).fillGlyph cp pixels m).1 = none)
    (hloc : ((((va.reserveGlyph cp).2).fillGlyph cp pixels m).2).glyphIndex cp = some loc) :
    loc.page.texture = (va.reserveGlyph cp).1.page.texture := by
  obtain ⟨p, hp, htex⟩ := reserveGlyph_latin va cp hl
  rw [htex]
  exact fillGlyph_latin_texture _ cp hl pixels m p hp hok loc hloc

/-- Witness for the amended C3: reserve-then-fill of `'A'` on a fresh
16-pixel atlas keeps texture 0. -/
theorem reserve_fill_texture_stable_latin_witness :
    isLatinChar 65 = true ∧
    ((((VariantAtlas.init "w" 3 16 8).reserveGlyph 65).2).fillGlyph 65 (fun _ => 0)
      { width := 2, height := 2, advance := 2, xOffset := 0, yOffset := 0,
        planeBounds := { l := 0, b := 0, r := 0, t := 0 } }).1 = none ∧
    (((((VariantAtlas.init "w" 3 16 8).reserveGlyph 65).2).fillGlyph 65 (fun _ => 0)
      { width := 2, height := 2, advance := 2, xOffset := 0, yOffset := 0,
        planeBounds := { l := 0, b := 0, r := 0, t := 0 } }).2).glyphIndex 65 =
      some { page := { texture := 0, width := 16, height := 16 }, x := 0, y := 0,
             width := 2, height := 2,
             metrics := { width := 2, height := 2, advance := 2, xOffset := 0, yOffset := 0,
                          planeBounds := { l := 0, b := 0, r := 0, t := 0 } },
             empty := false, missing := false } ∧
    ({ page := { texture := 0, width := 16, height := 16 }, x := 0, y := 0,
       width := 2, height := 2,
       metrics := { width := 2, height := 2, advance := 2, xOffset := 0, yOffset := 0,
                    planeBounds := { l := 0, b := 0, r := 0, t := 0 } },
       empty := false, missing := false } : GlyphLocation).page.texture =
      ((VariantAtlas.init "w" 3 16 8).reserveGlyph 65).1.page.texture :=
  ⟨by decide, by decide, by decide,
    reserve_fill_texture_stable_latin (VariantAtlas.init "w" 3 16 8) 65 (by decide)
      (fun _ => 0)
      { width := 2, height := 2, advance := 2, xOffset := 0, yOffset := 0,
        planeBounds := { l := 0, b := 0, r := 0, t := 0 } }
      { page := { texture := 0, width := 16, height := 16 }, x := 0, y := 0,
        width := 2, height := 2,
        metrics := { width := 2, height := 2, advance := 2, xOffset := 0, yOffset := 0,
                     planeBounds := { l := 0, b := 0, r := 0, t := 0 } },
        empty := false, missing := false }
      (by decide) (by decide)⟩

/-! ## C5 — the blit is a byte-for-byte vertically flipped copy -/

theorem writeBytes_apply (buf pixels : Nat → Nat) (dstOff srcOff n i : Nat) :
    writeBytes buf pixels dstOff srcOff n i =
      if dstOff ≤ i ∧ i < dstOff + n then pixels (srcOff + (i - dstOff))
      else buf i := by
  induction n with
  | zero =>
    unfold writeBytes
    have : ¬(dstOff ≤ i ∧ i < dstOff + 0) := by omega
    rw [if_neg this]
  | succ n ih =>
    unfold writeBytes
    rw [Function.update_apply, ih]
    by_cases h1 : i = dstOff + n
    · subst h1
      rw [if_pos rfl, if_pos (by omega)]
      congr 1
      omega
    · rw [if_neg h1]
      by_cases h2 : dstOff ≤ i ∧ i < dstOff + n
      · rw [if_pos h2, if_pos (by omega)]
      · rw [if_neg h2, if_neg (by omega)]


theorem blit_fold_outside (pixels : Nat → Nat) (x y w h W : Nat)
    (L : List Nat) (buf : Nat → Nat) (i : Nat)
    (hmiss : ∀ r ∈ L, ¬(rowSeg x y w h W r ≤ i ∧ i < rowSeg x y w h W r + w * 4)) :
    (L.foldl (fun b row => writeBytes b pixels (((y + (h - 1 - row)) * W + x) * 4)
      (row * w * 4) (w * 4)) buf) i = buf i := by
  induction L generalizing buf with
  | nil => rfl
  | cons r rest ih =>
    simp only [List.foldl_cons]
    rw [ih _ (fun r' hr' => hmiss r' (List.mem_cons_of_mem _ hr'))]
    rw [writeBytes_apply]
    rw [if_neg]
    exact hmiss r (List.mem_cons_self _ _)

theorem blit_fold_hit (pixels : Nat → Nat) (x y w h W : Nat)
    (L1 L2 : List Nat) (r : Nat) (buf : Nat → Nat) (i : Nat)
    (hhit : rowSeg x y w h W r ≤ i ∧ i < rowSeg x y w h W r + w * 4)
    (hmiss : ∀ r' ∈ L2, ¬(rowSeg x y w h W r' ≤ i ∧ i < rowSeg x y w h W r' + w * 4)) :
    ((L1 ++ r :: L2).foldl (fun b row => writeBytes b pixels
        (((y + (h - 1 - row)) * W + x) * 4) (row * w * 4) (w * 4)) buf) i =
      pixels (r * w * 4 + (i - rowSeg x y w h W r)) := by
  rw [List.foldl_append]
  simp only [List.foldl_cons]
  rw [blit_fold_outside pixels x y w h W L2 _ i hmiss]
  rw [writeBytes_apply]
  rw [if_pos]
  · rfl
  · exact hhit

theorem rowSeg_disjoint (x y w h W r r' : Nat) (hxw : x + w ≤ W)
    (h1 : r < r') (h2 : r' < h) :
    rowSeg x y w h W r' + w * 4 ≤ rowSeg x y w h W r := by
  unfold rowSeg
  have ha : (y + (h - 1 - r')) + 1 ≤ y + (h - 1 - r) := by omega
  have hm : ((y + (h - 1 - r')) + 1) * W ≤ (y + (h - 1 - r)) * W :=
    Nat.mul_le_mul_right W ha
  rw [Nat.succ_mul] at hm
  omega

theorem blit_apply_inside (buf pixels : Nat → Nat) (x y w h W : Nat)
    (hxw : x + w ≤ W) (r c : Nat) (hr : r < h) (hc : c < 4 * w) :
    blit buf pixels x y w h W (((y + (h - 1 - r)) * W + x) * 4 + c) =
      pixels (r * w * 4 + c) := by
  unfold blit
  have hdec : List.range h = List.range r ++ r :: (List.range (h - (r + 1))).map
      (fun k => (r + 1) + k) := by
    have hh : h = (r + 1) + (h - (r + 1)) := by omega
    rw [hh, List.range_add, List.range_succ]
    simp
  rw [hdec]
  have hi : ((y + (h - 1 - r)) * W + x) * 4 + c = rowSeg x y w h W r + c := rfl
  rw [hi]
  rw [blit_fold_hit pixels x y w h W _ _ r buf _ ?_ ?_]
  · congr 1
    omega
  · constructor
    · omega
    · unfold rowSeg; omega
  · intro r' hr'
    simp only [List.mem_map, List.mem_range] at hr'
    obtain ⟨k, hk, rfl⟩ := hr'
    have := rowSeg_disjoint x y w h W r (r + 1 + k) hxw (by omega) (by omega)
    omega

theorem blit_apply_outside (buf pixels : Nat → Nat) (x y w h W : Nat) (i : Nat)
    (hmiss : ∀ r, r < h →
      ¬(((y + (h - 1 - r)) * W + x) * 4 ≤ i ∧
        i < ((y + (h - 1 - r)) * W + x) * 4 + 4 * w)) :
    blit buf pixels x y w h W i = buf i := by
  unfold blit
  apply blit_fold_outside
  intro r hr
  have := hmiss r (List.mem_range.mp hr)
  unfold rowSeg
  omega

theorem tryAdd_success_buffer (p : Page) (pixels : Nat → Nat) (w h x y : Nat)
    (hpos : (p.tryAdd pixels w h).1 = some (x, y)) :
    (p.tryAdd pixels w h).2.buffer = blit p.buffer pixels x y w h p.width := by
  unfold Page.tryAdd at *
  dsimp only at *
  by_cases hA : p.width < p.cursorX + (w + 1) <;>
    simp only [hA, if_true, if_false, ite_true, ite_false] at hpos ⊢ <;>
    split at hpos <;> simp_all <;> rw [if_neg (by omega)]

/-- C5 (amended): on a successful `Page.tryAdd` of a `w×h` RGBA glyph placed
at `(x, y)`, provided the glyph leaves room for its gutter in a page row
(`w + 1 ≤ W` — the side condition forced by the wide-glyph counterexample),
every source row `r ∈ [0, h)` and byte column `c ∈ [0, 4w)` satisfies
`buffer[((y + (h−1−r))·W + x)·4 + c] = pixels[(r·w)·4 + c]` — a byte-for-byte
RGBA blit with vertical flip — and every byte outside the written row
segments is unchanged. -/
theorem tryAdd_blit_correct (p : Page) (pixels : Nat → Nat) (w gh x y : Nat)
    (hw : w + 1 ≤ p.width)
    (hpos : (p.tryAdd pixels w gh).1 = some (x, y)) :
    (∀ r c, r < gh → c < 4 * w →
      (p.tryAdd pixels w gh).2.buffer (((y + (gh - 1 - r)) * p.width + x) * 4 + c) =
        pixels (r * w * 4 + c)) ∧
    (∀ i, (∀ r, r < gh →
        ¬(((y + (gh - 1 - r)) * p.width + x) * 4 ≤ i ∧
          i < ((y + (gh - 1 - r)) * p.width + x) * 4 + 4 * w)) →
      (p.tryAdd pixels w gh).2.buffer i = p.buffer i) := by
  have hxw : x + w ≤ p.width := by
    have := tryAdd_pos_bounds p pixels w gh x y hw hpos
    omega
  rw [tryAdd_success_buffer p pixels w gh x y hpos]
  constructor
  · intro r c hr hc
    exact blit_apply_inside p.buffer pixels x y w gh p.width hxw r c hr hc
  · intro i hmiss
    exact blit_apply_outside p.buffer pixels x y w gh p.width i hmiss

/-- C5 counterexample: on a 2-pixel-wide page, a 3×2 glyph is accepted at
`(0, 1)` (after a shelf advance), but its destination row segments are wider
than the page rows, so they overlap: the byte the claim says holds
`pixels[0]` (= 0 for `pixels = id`) actually holds `pixels[20] = 20`,
overwritten by the next source row. -/
theorem tryAdd_blit_rows_overlap :
    ((Page.new 2 8 0).tryAdd (fun i => i) 3 2).1 = some (0, 1) ∧
    ¬(((Page.new 2 8 0).tryAdd (fun i => i) 3 2).2.buffer
        (((1 + (2 - 1 - 0)) * (Page.new 2 8 0).width + 0) * 4 + 0) =
      (fun i : Nat => i) (0 * 3 * 4 + 0)) :=
  ⟨by decide, by decide⟩

/-- Witness for the amended C5 at a concrete in-bounds placement. -/
theorem tryAdd_blit_correct_witness :
    2 + 1 ≤ (Page.new 4 4 7).width ∧
    ((Page.new 4 4 7).tryAdd (fun i => i + 1) 2 1).1 = some (0, 0) ∧
    ((∀ r c, r < 1 → c < 4 * 2 →
      ((Page.new 4 4 7).tryAdd (fun i => i + 1) 2 1).2.buffer
          (((0 + (1 - 1 - r)) * (Page.new 4 4 7).width + 0) * 4 + c) =
        (fun i => i + 1) (r * 2 * 4 + c)) ∧
     (∀ i, (∀ r, r < 1 →
        ¬(((0 + (1 - 1 - r)) * (Page.new 4 4 7).width + 0) * 4 ≤ i ∧
          i < ((0 + (1 - 1 - r)) * (Page.new 4 4 7).width + 0) * 4 + 4 * 2)) →
      ((Page.new 4 4 7).tryAdd (fun i => i + 1) 2 1).2.buffer i =
        (Page.new 4 4 7).buffer i)) :=
  ⟨by decide, by decide,
    tryAdd_blit_correct (Page.new 4 4 7) (fun i => i + 1) 2 1 0 0 (by decide) (by decide)⟩

/-! ## C6 — `fillGlyph` overflow handling -/

/-- C6: when `fillGlyph`'s `tryAdd` on the selected page reports "no fit":
for a non-Latin code point exactly one fresh mixed page is allocated and the
placement is retried on it, with a fatal `freshPageOverflow` error exactly
when that fresh page cannot fit the glyph either; for a Latin code point the
"no fit" is immediately the fatal `latinPageFull` error, with no new page
allocated. -/
theorem fillGlyph_overflow_policy (va : VariantAtlas) (cp : Nat)
    (pixels : Nat → Nat) (m : GlyphMetrics)
    (hfail : ((((va.getOrCreatePage (isLatinChar cp) m.height).2).pageAt
        (va.getOrCreatePage (isLatinChar cp) m.height).1).tryAdd
        pixels m.width m.height).1 = none) :
    if isLatinChar cp then
      (va.fillGlyph cp pixels m).1 = some .latinPageFull ∧
      ((va.fillGlyph cp pixels m).2).mixedPages =
        ((va.getOrCreatePage (isLatinChar cp) m.height).2).mixedPages ∧
      ((va.fillGlyph cp pixels m).2).latinPage.isSome =
        ((va.getOrCreatePage (isLatinChar cp) m.height).2).latinPage.isSome
    else
      ((va.fillGlyph cp pixels m).2).mixedPages.length =
        ((va.getOrCreatePage (isLatinChar cp) m.height).2).mixedPages.length + 1 ∧
      (va.fillGlyph cp pixels m).1 =
        (match ((Page.new va.pageSize va.pageSize
            ((va.getOrCreatePage (isLatinChar cp) m.height).2).nextTex).tryAdd
            pixels m.width m.height).1 with
         | some _ => none
         | none => some .freshPageOverflow) := by
  have hlsel : ∀ gh, (va.getOrCreatePage true gh).1 = PageSel.latin := by
    intro gh
    unfold VariantAtlas.getOrCreatePage
    cases h : va.latinPage <;> simp [h]
  unfold VariantAtlas.fillGlyph
  simp only []
  set sel := (va.getOrCreatePage (isLatinChar cp) m.height).1 with hsel
  set va1 := (va.getOrCreatePage (isLatinChar cp) m.height).2 with hva1
  set t := (va1.pageAt sel).tryAdd pixels m.width m.height with ht
  set va2 := va1.setPage sel t.2 with hva2
  have htt : t.1 = none := hfail
  have hps2 : va2.pageSize = va.pageSize := by
    rw [hva2, pageSize_setPage, hva1,
        (getOrCreatePage_frame va (isLatinChar cp) m.height).2.2.1]
  have hnt2 : va2.nextTex = va1.nextTex := by
    rw [hva2]; cases sel <;> rfl
  have hlen2 : va2.mixedPages.length = va1.mixedPages.length := by
    rw [hva2]; cases sel <;> simp [VariantAtlas.setPage]
  by_cases hl : isLatinChar cp = true
  · rw [if_pos hl]
    rw [htt]
    simp only [hl, if_true, ite_true]
    refine ⟨trivial, ?_, ?_⟩
    · rw [hva2]
      have : sel = PageSel.latin := by rw [hsel, hl]; exact hlsel m.height
      rw [this]
      rfl
    · rw [hva2]
      have hsl : sel = PageSel.latin := by rw [hsel, hl]; exact hlsel m.height
      rw [hsl]
      have hv1 : selValid va1 sel := by rw [hsel, hva1]; exact getOrCreatePage_valid _ _ _
      rw [hsl] at hv1
      simp only [selValid] at hv1
      simp [VariantAtlas.setPage, hv1]
  · rw [if_neg hl]
    rw [htt]
    simp only [hl, if_false, ite_false, Bool.false_eq_true]
    have hpa3 : (va2.createMixedPage.2).pageAt (.mixed va2.createMixedPage.1) =
        Page.new va.pageSize va.pageSize va1.nextTex := by
      rw [createMixedPage_pageAt, hps2, hnt2]
    have hlen3 : (va2.createMixedPage.2).mixedPages.length = va2.mixedPages.length + 1 := by
      rw [(createMixedPage_frame va2).2.2.2]
      simp
    rw [hpa3]
    cases htt2 : ((Page.new va.pageSize va.pageSize va1.nextTex).tryAdd
        pixels m.width m.height).1 with
    | some pos2 =>
      simp only [htt2]
      refine ⟨?_, trivial⟩
      rw [(updateGlyphLocation_frame _ cp _ pos2 m).2.2]
      have : ((va2.createMixedPage.2).setPage (.mixed va2.createMixedPage.1)
          ((Page.new va.pageSize va.pageSize va1.nextTex).tryAdd pixels m.width m.height).2).mixedPages.length =
          (va2.createMixedPage.2).mixedPages.length := by
        simp [VariantAtlas.setPage]
      rw [this, hlen3, hlen2]
    | none =>
      simp only [htt2]
      refine ⟨?_, trivial⟩
      have : ((va2.createMixedPage.2).setPage (.mixed va2.createMixedPage.1)
          ((Page.new va.pageSize va.pageSize va1.nextTex).tryAdd pixels m.width m.height).2).mixedPages.length =
          (va2.createMixedPage.2).mixedPages.length := by
        simp [VariantAtlas.setPage]
      rw [this, hlen3, hlen2]

/-- Witness for C6: a non-Latin 3×3 fill against an atlas whose only mixed
page has no room left triggers the fresh-page retry. -/
theorem fillGlyph_overflow_policy_witness :
    (let va : VariantAtlas :=
      { variantId := "v", genSize := 3,
        latinPage := none,
        mixedPages := [{ width := 4, height := 4, buffer := fun _ => 0, texture := 0,
                         cursorX := 2, cursorY := 0, rowHeight := 4, dirty := true }],
        glyphIndex := fun _ => none, pendingGlyphs := fun _ => false,
        pageSize := 4, maxMixedPages := 8, nextTex := 1 }
     let m : GlyphMetrics :=
       { width := 3, height := 3, advance := 3, xOffset := 0, yOffset := 0,
         planeBounds := { l := 0, b := 0, r := 0, t := 0 } }
     ((((va.getOrCreatePage (isLatinChar 19969) m.height).2).pageAt
         (va.getOrCreatePage (isLatinChar 19969) m.height).1).tryAdd
         (fun _ => 0) m.width m.height).1 = none ∧
     if isLatinChar 19969 then
       (va.fillGlyph 19969 (fun _ => 0) m).1 = some .latinPageFull ∧
       ((va.fillGlyph 19969 (fun _ => 0) m).2).mixedPages =
         ((va.getOrCreatePage (isLatinChar 19969) m.height).2).mixedPages ∧
       ((va.fillGlyph 19969 (fun _ => 0) m).2).latinPage.isSome =
         ((va.getOrCreatePage (isLatinChar 19969) m.height).2).latinPage.isSome
     else
       ((va.fillGlyph 19969 (fun _ => 0) m).2).mixedPages.length =
         ((va.getOrCreatePage (isLatinChar 19969) m.height).2).mixedPages.length + 1 ∧
       (va.fillGlyph 19969 (fun _ => 0) m).1 =
         (match ((Page.new va.pageSize va.pageSize
             ((va.getOrCreatePage (isLatinChar 19969) m.height).2).nextTex).tryAdd
             (fun _ => 0) m.width m.height).1 with
          | some _ => none
          | none => some .freshPageOverflow)) := by
  refine ⟨by decide, ?_⟩
  exact fillGlyph_overflow_policy _ 19969 (fun _ => 0) _ (by decide)

/-! ## C7 — `prefabLatin` caches all 62 Latin code points synchronously -/

theorem prefabStep_skip (msdf : Oracle) (fb : Nat) (axes : List Nat) (gs : Nat)
    (va : VariantAtlas) (cp : Nat) (l : GlyphLocation)
    (hg : va.getGlyph cp = some l) :
    prefabStep msdf fb axes gs va cp = (none, va) := by
  unfold prefabStep
  rw [hg]

theorem prefabStep_missing (msdf : Oracle) (fb : Nat) (axes : List Nat) (gs : Nat)
    (va : VariantAtlas) (cp : Nat) (hg : va.getGlyph cp = none)
    (hh : msdf.hasGlyph fb cp = false) :
    prefabStep msdf fb axes gs va cp =
      (none, ((va.reserveGlyph cp).2).markEmpty cp true) := by
  unfold prefabStep
  rw [hg]
  dsimp only
  rw [if_pos hh]

theorem prefabStep_gen (msdf : Oracle) (fb : Nat) (axes : List Nat) (gs : Nat)
    (va : VariantAtlas) (cp : Nat) (glyph : OracleGlyph)
    (hg : va.getGlyph cp = none) (hh : msdf.hasGlyph fb cp = true)
    (hgen : msdf.generate fb cp gs axes = some glyph) :
    prefabStep msdf fb axes gs va cp =
      va.addGlyph cp glyph.pixels (toGlyphMetrics glyph.metrics) := by
  unfold prefabStep
  rw [hg]
  dsimp only
  rw [if_neg (by simp [hh]), hgen]

theorem prefabStep_empty (msdf : Oracle) (fb : Nat) (axes : List Nat) (gs : Nat)
    (va : VariantAtlas) (cp : Nat)
    (hg : va.getGlyph cp = none) (hh : msdf.hasGlyph fb cp = true)
    (hgen : msdf.generate fb cp gs axes = none) :
    prefabStep msdf fb axes gs va cp =
      (none, ((va.reserveGlyph cp).2).markEmpty cp false) := by
  unfold prefabStep
  rw [hg]
  dsimp only
  rw [if_neg (by simp [hh]), hgen]

theorem prefabStep_self (msdf : Oracle) (fb : Nat) (axes : List Nat) (gs : Nat)
    (va : VariantAtlas) (cp : Nat)
    (hok : (prefabStep msdf fb axes gs va cp).1 = none) :
    (((prefabStep msdf fb axes gs va cp).2).getGlyph cp).isSome = true := by
  cases hg : va.getGlyph cp with
  | some l => rw [prefabStep_skip msdf fb axes gs va cp l hg]; simp [hg]
  | none =>
    cases hh : msdf.hasGlyph fb cp with
    | false =>
      rw [prefabStep_missing msdf fb axes gs va cp hg hh]
      dsimp only
      rw [getGlyph_markEmpty_self, glyphIndex_reserve_self]
      rfl
    | true =>
      cases hgen : msdf.generate fb cp gs axes with
      | some glyph =>
        rw [prefabStep_gen msdf fb axes gs va cp glyph hg hh hgen] at hok ⊢
        exact getGlyph_addGlyph_self va cp glyph.pixels (toGlyphMetrics glyph.metrics) hok
      | none =>
        rw [prefabStep_empty msdf fb axes gs va cp hg hh hgen]
        dsimp only
        rw [getGlyph_markEmpty_self, glyphIndex_reserve_self]
        rfl

theorem prefabStep_mono (msdf : Oracle) (fb : Nat) (axes : List Nat) (gs : Nat)
    (va : VariantAtlas) (cp c : Nat)
    (hsome : (va.getGlyph c).isSome = true) :
    (((prefabStep msdf fb axes gs va cp).2).getGlyph c).isSome = true := by
  cases hg : va.getGlyph cp with
  | some l => rw [prefabStep_skip msdf fb axes gs va cp l hg]; exact hsome
  | none =>
    have hc : c ≠ cp := by
      intro h
      subst h
      rw [hg] at hsome
      simp at hsome
    cases hh : msdf.hasGlyph fb cp with
    | false =>
      rw [prefabStep_missing msdf fb axes gs va cp hg hh]
      dsimp only
      rw [getGlyph_markEmpty_other _ _ _ _ hc, getGlyph_reserve_other _ _ _ hc]
      exact hsome
    | true =>
      cases hgen : msdf.generate fb cp gs axes with
      | some glyph =>
        rw [prefabStep_gen msdf fb axes gs va cp glyph hg hh hgen]
        rw [getGlyph_addGlyph_other _ _ _ _ _ hc]
        exact hsome
      | none =>
        rw [prefabStep_empty msdf fb axes gs va cp hg hh hgen]
        dsimp only
        rw [getGlyph_markEmpty_other _ _ _ _ hc, getGlyph_reserve_other _ _ _ hc]
        exact hsome

theorem prefabLoop_cached (msdf : Oracle) (fb : Nat) (axes : List Nat) (gs : Nat)
    (L : List Nat) : ∀ va va', prefabLoop msdf fb axes gs va L = (none, va') →
    ∀ cp, (cp ∈ L ∨ (va.getGlyph cp).isSome = true) →
    (va'.getGlyph cp).isSome = true := by
  induction L with
  | nil =>
    intro va va' h cp hcp
    unfold prefabLoop at h
    cases h
    rcases hcp with hmem | hsome
    · simp at hmem
    · exact hsome
  | cons c rest ih =>
    intro va va' h cp hcp
    unfold prefabLoop at h
    cases hpair : prefabStep msdf fb axes gs va c with
    | mk e1 va1 =>
      rw [hpair] at h
      cases e1 with
      | some e => simp at h
      | none =>
        dsimp only at h
        refine ih va1 va' h cp ?_
        rcases hcp with hmem | hsome
        · rcases List.mem_cons.mp hmem with heq | hmem
          · subst heq
            right
            have hself := prefabStep_self msdf fb axes gs va cp (by rw [hpair])
            rw [hpair] at hself
            exact hself
          · exact Or.inl hmem
        · right
          have hmono := prefabStep_mono msdf fb axes gs va c cp hsome
          rw [hpair] at hmono
          exact hmono

theorem getOrCreateAtlas_frame (s : FontAtlasState) (v : String) (g : Nat) :
    ((s.getOrCreateAtlas v g).2).config = s.config ∧
    ((s.getOrCreateAtlas v g).2).pendingGlyphs = s.pendingGlyphs ∧
    ((s.getOrCreateAtlas v g).2).batchScheduled = s.batchScheduled := by
  unfold FontAtlasState.getOrCreateAtlas
  cases h : s.atlases (atlasKey v g) <;> simp [h, FontAtlasState.setAtlas]

/-- C7: when `prefabLatin` returns without an error, every one of the 62
Latin code points is cached (a subsequent `getGlyph` at the same variant and
render size returns `cached = true`), the pending generation FIFO and the
drain marker are untouched, and `onGlyphsReady` is not invoked. -/
theorem FontAtlas_getGlyph_hit (s : FontAtlasState) (request : GlyphRequest)
    (va : VariantAtlas) (loc : GlyphLocation)
    (hva : s.atlases (atlasKey request.variantId
        (selectGenSize s.config request.renderSize)) = some va)
    (hloc : va.getGlyph request.codePoint = some loc) :
    s.getGlyph request =
      (locationToInfo loc (selectGenSize s.config request.renderSize) true, s) := by
  unfold FontAtlasState.getGlyph FontAtlasState.getOrCreateAtlas
  dsimp only
  rw [hva]
  dsimp only
  rw [hloc]

/-- C7: when `prefabLatin` returns without an error, every one of the 62
Latin code points is cached (a subsequent `getGlyph` at the same variant and
render size returns `cached = true`), the pending generation FIFO and the
drain marker are untouched, and `onGlyphsReady` is not invoked. -/
theorem prefabLatin_latin_cached (msdf : Oracle) (s : FontAtlasState)
    (variantId : String) (fontSize fontBuffer : Nat) (axes : List Nat)
    (hok : (prefabLatin msdf s variantId fontSize fontBuffer axes).1 = none)
    (cp : Nat) (hcp : cp ∈ LATIN_CODEPOINTS) (fb' : Nat) (axes' : List Nat) :
    (((prefabLatin msdf s variantId fontSize fontBuffer axes).2.1).getGlyph
      { codePoint := cp, variantId := variantId, fontBuffer := fb',
        variationAxes := axes', renderSize := fontSize }).1.cached = true ∧
    ((prefabLatin msdf s variantId fontSize fontBuffer axes).2.1).pendingGlyphs =
      s.pendingGlyphs ∧
    ((prefabLatin msdf s variantId fontSize fontBuffer axes).2.1).batchScheduled =
      s.batchScheduled ∧
    (prefabLatin msdf s variantId fontSize fontBuffer axes).2.2 = 0 := by
  have hframe := getOrCreateAtlas_frame s variantId (selectGenSize s.config fontSize)
  unfold prefabLatin at hok ⊢
  dsimp only at hok ⊢
  cases hloop : prefabLoop msdf fontBuffer axes (selectGenSize s.config fontSize)
      (s.getOrCreateAtlas variantId (selectGenSize s.config fontSize)).1
      LATIN_CODEPOINTS with
  | mk e a' =>
    rw [hloop] at hok
    cases e with
    | some err => simp at hok
    | none =>
      dsimp only at hok ⊢
      have hcached : ((a'.flushDirtyPages).getGlyph cp).isSome = true := by
        rw [getGlyph_flushDirtyPages]
        exact prefabLoop_cached msdf fontBuffer axes (selectGenSize s.config fontSize)
          LATIN_CODEPOINTS _ a' hloop cp (Or.inl hcp)
      obtain ⟨loc, hloc⟩ := Option.isSome_iff_exists.mp hcached
      refine ⟨?_, hframe.2.1, hframe.2.2, rfl⟩
      have hhit := FontAtlas_getGlyph_hit
        (((s.getOrCreateAtlas variantId (selectGenSize s.config fontSize)).2).setAtlas
          (atlasKey variantId (selectGenSize s.config fontSize)) a'.flushDirtyPages)
        { codePoint := cp, variantId := variantId, fontBuffer := fb',
          variationAxes := axes', renderSize := fontSize }
        a'.flushDirtyPages loc ?_ hloc
      · rw [hhit]; rfl
      · show (((s.getOrCreateAtlas variantId (selectGenSize s.config fontSize)).2).setAtlas
            (atlasKey variantId (selectGenSize s.config fontSize))
            a'.flushDirtyPages).atlases _ = _
        have hcfg : (((s.getOrCreateAtlas variantId (selectGenSize s.config fontSize)).2).setAtlas
            (atlasKey variantId (selectGenSize s.config fontSize))
            a'.flushDirtyPages).config = s.config := hframe.1
        rw [hcfg]
        simp [FontAtlasState.setAtlas]

/-- Witness for C7: with an oracle that reports every glyph missing,
`prefabLatin` on a fresh atlas completes, and the theorem applies at `'A'`. -/
theorem prefabLatin_latin_cached_witness :
    (prefabLatin { hasGlyph := fun _ _ => false, generate := fun _ _ _ _ => none }
      (FontAtlasState.init DEFAULT_CONFIG) "p" 32 0 []).1 = none ∧
    (65 ∈ LATIN_CODEPOINTS) ∧
    ((((prefabLatin { hasGlyph := fun _ _ => false, generate := fun _ _ _ _ => none }
        (FontAtlasState.init DEFAULT_CONFIG) "p" 32 0 []).2.1).getGlyph
      { codePoint := 65, variantId := "p", fontBuffer := 0,
        variationAxes := [], renderSize := 32 }).1.cached = true ∧
     ((prefabLatin { hasGlyph := fun _ _ => false, generate := fun _ _ _ _ => none }
        (FontAtlasState.init DEFAULT_CONFIG) "p" 32 0 []).2.1).pendingGlyphs =
       (FontAtlasState.init DEFAULT_CONFIG).pendingGlyphs ∧
     ((prefabLatin { hasGlyph := fun _ _ => false, generate := fun _ _ _ _ => none }
        (FontAtlasState.init DEFAULT_CONFIG) "p" 32 0 []).2.1).batchScheduled =
       (FontAtlasState.init DEFAULT_CONFIG).batchScheduled ∧
     (prefabLatin { hasGlyph := fun _ _ => false, generate := fun _ _ _ _ => none }
        (FontAtlasState.init DEFAULT_CONFIG) "p" 32 0 []).2.2 = 0) :=
  ⟨by decide, by decide,
    prefabLatin_latin_cached _ _ "p" 32 0 [] (by decide) 65 (by decide) 0 []⟩

/-! ## C9 — `onGlyphsReady` invocation discipline -/

/-- C9 counterexample: a drain whose snapshot is non-empty can finish without
invoking `onGlyphsReady`: if the single queued Latin glyph is generated at
2000×2000 it cannot fit the 1024-pixel Latin page, `fillGlyph` throws
`latinPageFull`, the batch promise rejects, and the callback count of that
drain is 0 — not exactly once. -/
theorem processBatch_abort_no_callback :
    (let s := ((FontAtlasState.init DEFAULT_CONFIG).getGlyph
        { codePoint := 65, variantId := "v", fontBuffer := 0, variationAxes := [],
          renderSize := 32 }).2
     let msdf : Oracle :=
       { hasGlyph := fun _ _ => true,
         generate := fun _ _ _ _ => some
           { metrics := { width := 2000, height := 2000, advance := 0,
                          planeBounds := { l := 0, b := 0, r := 0, t := 0 } },
             pixels := fun _ => 0 } }
     s.pendingGlyphs.isEmpty = false ∧
     (processBatch msdf s).1 = some .latinPageFull ∧
     (processBatch msdf s).2.2 = 0) :=
  ⟨by decide, by decide, by decide⟩

/-- C9 (amended): for a drain that completes without a fatal error,
`onGlyphsReady` is invoked exactly once when the captured FIFO snapshot was
non-empty and never when it was empty; a drain aborted by a thrown error does
not reach the callback (see the counterexample), and `prefabLatin` never
invokes it. -/
theorem processBatch_callback_once (msdf : Oracle) (s : FontAtlasState)
    (variantId : String) (fontSize fontBuffer : Nat) (axes : List Nat)
    (hok : (processBatch msdf s).1 = none) :
    (processBatch msdf s).2.2 = (if s.pendingGlyphs.isEmpty then 0 else 1) ∧
    (prefabLatin msdf s variantId fontSize fontBuffer axes).2.2 = 0 := by
  constructor
  · unfold processBatch at hok ⊢
    dsimp only at hok ⊢
    by_cases he : s.pendingGlyphs.isEmpty
    · rw [if_pos he] at hok ⊢
      rw [if_pos he]
    · rw [if_neg he] at hok ⊢
      rw [if_neg he]
      cases hpl : processList msdf
          { config := s.config, atlases := s.atlases, atlasKeys := s.atlasKeys,
            pendingGlyphs := [], batchScheduled := false } s.pendingGlyphs with
      | mk e s' =>
        rw [hpl] at hok
        cases e with
        | some err => simp at hok
        | none => rfl
  · unfold prefabLatin
    dsimp only
    cases prefabLoop msdf fontBuffer axes (selectGenSize s.config fontSize)
        (s.getOrCreateAtlas variantId (selectGenSize s.config fontSize)).1
        LATIN_CODEPOINTS with
    | mk e a' => cases e <;> rfl

/-- Witness for the amended C9: a one-entry drain against an oracle with no
glyphs completes and invokes the callback exactly once. -/
theorem processBatch_callback_once_witness :
    (processBatch { hasGlyph := fun _ _ => false, generate := fun _ _ _ _ => none }
      (((FontAtlasState.init DEFAULT_CONFIG).getGlyph
        { codePoint := 65, variantId := "v", fontBuffer := 0, variationAxes := [],
          renderSize := 32 }).2)).1 = none ∧
    ((processBatch { hasGlyph := fun _ _ => false, generate := fun _ _ _ _ => none }
      (((FontAtlasState.init DEFAULT_CONFIG).getGlyph
        { codePoint := 65, variantId := "v", fontBuffer := 0, variationAxes := [],
          renderSize := 32 }).2)).2.2 =
      (if (((FontAtlasState.init DEFAULT_CONFIG).getGlyph
        { codePoint := 65, variantId := "v", fontBuffer := 0, variationAxes := [],
          renderSize := 32 }).2).pendingGlyphs.isEmpty then 0 else 1) ∧
     (prefabLatin { hasGlyph := fun _ _ => false, generate := fun _ _ _ _ => none }
      (((FontAtlasState.init DEFAULT_CONFIG).getGlyph
        { codePoint := 65, variantId := "v", fontBuffer := 0, variationAxes := [],
          renderSize := 32 }).2) "p" 32 0 []).2.2 = 0) :=
  ⟨by decide,
    processBatch_callback_once
      { hasGlyph := fun _ _ => false, generate := fun _ _ _ _ => none }
      (((FontAtlasState.init DEFAULT_CONFIG).getGlyph
        { codePoint := 65, variantId := "v", fontBuffer := 0, variationAxes := [],
          renderSize := 32 }).2) "p" 32 0 [] (by decide)⟩

/-! ## C8 — missing glyphs are marked empty/missing and cached -/

theorem flushDirtyPages_fields (va : VariantAtlas) :
    (va.flushDirtyPages).glyphIndex = va.glyphIndex ∧
    (va.flushDirtyPages).pendingGlyphs = va.pendingGlyphs := ⟨rfl, rfl⟩

theorem flushAtlasAt_obs (s : FontAtlasState) (k k' : String) :
    ((flushAtlasAt s k).atlases k').map
        (fun va => (va.glyphIndex, va.pendingGlyphs)) =
      (s.atlases k').map (fun va => (va.glyphIndex, va.pendingGlyphs)) ∧
    (flushAtlasAt s k).config = s.config := by
  unfold flushAtlasAt
  cases h : s.atlases k with
  | none => exact ⟨rfl, rfl⟩
  | some va =>
    constructor
    · unfold FontAtlasState.setAtlas
      dsimp only
      by_cases hk : k' = k
      · subst hk
        rw [if_pos rfl, h]
        rfl
      · rw [if_neg hk]
    · rfl

theorem flushAll_obs (s : FontAtlasState) (k : String) :
    ((flushAll s).atlases k).map (fun va => (va.glyphIndex, va.pendingGlyphs)) =
      (s.atlases k).map (fun va => (va.glyphIndex, va.pendingGlyphs)) ∧
    (flushAll s).config = s.config := by
  unfold flushAll
  generalize s.atlasKeys = keys
  induction keys generalizing s with
  | nil => exact ⟨rfl, rfl⟩
  | cons k0 rest ih =>
    simp only [List.foldl_cons]
    have h1 := flushAtlasAt_obs s k0 k
    have h2 := ih (flushAtlasAt s k0)
    exact ⟨h2.1.trans h1.1, h2.2.trans h1.2⟩

theorem processBatch_single_missing (msdf : Oracle) (s : FontAtlasState)
    (cp genSize fb : Nat) (axes : List Nat) (variantId : String)
    (va : VariantAtlas)
    (hfifo : s.pendingGlyphs = [{ codePoint := cp, genSize := genSize,
                                   fontBuffer := fb, variationAxes := axes,
                                   variantId := variantId }])
    (hva : s.atlases (atlasKey variantId genSize) = some va)
    (hhas : msdf.hasGlyph fb cp = false) :
    processBatch msdf s =
      (none, flushAll (FontAtlasState.setAtlas
        { config := s.config, atlases := s.atlases, atlasKeys := s.atlasKeys,
          pendingGlyphs := [], batchScheduled := false }
        (atlasKey variantId genSize) (va.markEmpty cp true)), 1) := by
  unfold processBatch
  dsimp only
  rw [hfifo]
  unfold processList processEntry FontAtlasState.getOrCreateAtlas
  dsimp only
  rw [hva]
  dsimp only
  rw [if_pos hhas]
  dsimp only
  rfl

theorem markEmpty_glyphIndex_self (va : VariantAtlas) (cp : Nat) (miss : Bool)
    (loc : GlyphLocation) (hidx : va.glyphIndex cp = some loc) :
    (va.markEmpty cp miss).glyphIndex cp =
      some { loc with empty := true, missing := miss, width := 0, height := 0 } := by
  unfold VariantAtlas.markEmpty
  rw [hidx]
  dsimp only
  rw [if_pos rfl]

theorem markEmpty_pending_self (va : VariantAtlas) (cp : Nat) (miss : Bool) :
    (va.markEmpty cp miss).pendingGlyphs cp = false := by
  unfold VariantAtlas.markEmpty
  cases va.glyphIndex cp <;> simp

/-- C8: a queued code point the font does not contain is handled by the drain
with `markEmpty(cp, missing := true)`: the existing reserved location gets
`empty = true`, `missing = true`, `width = height = 0`, keeps its placeholder
metrics, and leaves the pending set; a subsequent `getGlyph` for the same
variant and render size returns `cached = true`, `missing = true`,
`empty = true` and `metrics.width = 0`. -/
theorem processBatch_missing_glyph (msdf : Oracle) (s : FontAtlasState)
    (cp genSize fb : Nat) (axes : List Nat) (variantId : String)
    (loc : GlyphLocation) (renderSize fb' : Nat) (axes' : List Nat)
    (hfifo : s.pendingGlyphs = [{ codePoint := cp, genSize := genSize,
                                   fontBuffer := fb, variationAxes := axes,
                                   variantId := variantId }])
    (hloc : atlasIndexAt s (atlasKey variantId genSize) cp = some loc)
    (hm : loc.metrics = PLACEHOLDER_METRICS)
    (hhas : msdf.hasGlyph fb cp = false)
    (hsel : selectGenSize s.config renderSize = genSize) :
    (processBatch msdf s).1 = none ∧
    atlasIndexAt (processBatch msdf s).2.1 (atlasKey variantId genSize) cp =
      some { loc with empty := true, missing := true, width := 0, height := 0 } ∧
    atlasPendingAt (processBatch msdf s).2.1 (atlasKey variantId genSize) cp = false ∧
    (((processBatch msdf s).2.1).getGlyph
      { codePoint := cp, variantId := variantId, fontBuffer := fb',
        variationAxes := axes', renderSize := renderSize }).1.cached = true ∧
    (((processBatch msdf s).2.1).getGlyph
      { codePoint := cp, variantId := variantId, fontBuffer := fb',
        variationAxes := axes', renderSize := renderSize }).1.missing = true ∧
    (((processBatch msdf s).2.1).getGlyph
      { codePoint := cp, variantId := variantId, fontBuffer := fb',
        variationAxes := axes', renderSize := renderSize }).1.empty = true ∧
    (((processBatch msdf s).2.1).getGlyph
      { codePoint := cp, variantId := variantId, fontBuffer := fb',
        variationAxes := axes', renderSize := renderSize }).1.metrics.width = 0 := by
  unfold atlasIndexAt at hloc
  cases hva : s.atlases (atlasKey variantId genSize) with
  | none => rw [hva] at hloc; simp at hloc
  | some va =>
    rw [hva] at hloc
    have hidx : va.glyphIndex cp = some loc := hloc
    rw [processBatch_single_missing msdf s cp genSize fb axes variantId va hfifo hva hhas]
    dsimp only
    have hS1 : (FontAtlasState.setAtlas
        { config := s.config, atlases := s.atlases, atlasKeys := s.atlasKeys,
          pendingGlyphs := [], batchScheduled := false }
        (atlasKey variantId genSize) (va.markEmpty cp true)).atlases
        (atlasKey variantId genSize) = some (va.markEmpty cp true) := by
      unfold FontAtlasState.setAtlas
      simp
    have hobs := flushAll_obs (FontAtlasState.setAtlas
        { config := s.config, atlases := s.atlases, atlasKeys := s.atlasKeys,
          pendingGlyphs := [], batchScheduled := false }
        (atlasKey variantId genSize) (va.markEmpty cp true)) (atlasKey variantId genSize)
    rw [hS1] at hobs
    cases hS : (flushAll (FontAtlasState.setAtlas
        { config := s.config, atlases := s.atlases, atlasKeys := s.atlasKeys,
          pendingGlyphs := [], batchScheduled := false }
        (atlasKey variantId genSize) (va.markEmpty cp true))).atlases
        (atlasKey variantId genSize) with
    | none => rw [hS] at hobs; simp at hobs
    | some vaS =>
      rw [hS] at hobs
      simp only [Option.map_some', Option.some.injEq, Prod.mk.injEq] at hobs
      obtain ⟨⟨hgi, hpg⟩, hcfg⟩ := hobs
      have hgetS : vaS.getGlyph cp =
          some { loc with empty := true, missing := true, width := 0, height := 0 } := by
        unfold VariantAtlas.getGlyph
        rw [hpg, markEmpty_pending_self]
        rw [hgi, markEmpty_glyphIndex_self va cp true loc hidx]
        simp
      have hcfg' : (flushAll (FontAtlasState.setAtlas
          { config := s.config, atlases := s.atlases, atlasKeys := s.atlasKeys,
            pendingGlyphs := [], batchScheduled := false }
          (atlasKey variantId genSize) (va.markEmpty cp true))).config = s.config := hcfg
    -- the hit lemma gives the GlyphInfo shape
      have hhit := FontAtlas_getGlyph_hit
        (flushAll (FontAtlasState.setAtlas
          { config := s.config, atlases := s.atlases, atlasKeys := s.atlasKeys,
            pendingGlyphs := [], batchScheduled := false }
          (atlasKey variantId genSize) (va.markEmpty cp true)))
        { codePoint := cp, variantId := variantId, fontBuffer := fb',
          variationAxes := axes', renderSize := renderSize }
        vaS { loc with empty := true, missing := true, width := 0, height := 0 }
        (by rw [hcfg']; dsimp only; rw [hsel]; exact hS) hgetS
      refine ⟨rfl, ?_, ?_, ?_, ?_, ?_, ?_⟩
      · unfold atlasIndexAt
        rw [hS]
        have : (some vaS).bind (fun va => va.glyphIndex cp) = vaS.glyphIndex cp := rfl
        rw [this, hgi, markEmpty_glyphIndex_self va cp true loc hidx]
      · unfold atlasPendingAt
        rw [hS]
        dsimp only
        rw [hpg, markEmpty_pending_self]
      · rw [hhit]; rfl
      · rw [hhit]; rfl
      · rw [hhit]; rfl
      · rw [hhit]
        show loc.metrics.width = 0
        rw [hm]
        rfl

/-- Witness for C8: one miss for U+1F600 against a glyph-less oracle, drained. -/
theorem processBatch_missing_glyph_witness :
    ((((FontAtlasState.init DEFAULT_CONFIG).getGlyph
        { codePoint := 0x1F600, variantId := "m", fontBuffer := 0, variationAxes := [],
          renderSize := 32 }).2).pendingGlyphs =
      [{ codePoint := 0x1F600, genSize := 32, fontBuffer := 0, variationAxes := [],
         variantId := "m" }]) ∧
    (atlasIndexAt (((FontAtlasState.init DEFAULT_CONFIG).getGlyph
        { codePoint := 0x1F600, variantId := "m", fontBuffer := 0, variationAxes := [],
          renderSize := 32 }).2) (atlasKey "m" 32) 0x1F600 =
      some { page := { texture := 0, width := 1024, height := 1024 }, x := 0, y := 0,
             width := 0, height := 0, metrics := PLACEHOLDER_METRICS,
             empty := false, missing := false }) ∧
    ((processBatch { hasGlyph := fun _ _ => false, generate := fun _ _ _ _ => none }
        (((FontAtlasState.init DEFAULT_CONFIG).getGlyph
        { codePoint := 0x1F600, variantId := "m", fontBuffer := 0, variationAxes := [],
          renderSize := 32 }).2)).1 = none ∧
     (((processBatch { hasGlyph := fun _ _ => false, generate := fun _ _ _ _ => none }
        (((FontAtlasState.init DEFAULT_CONFIG).getGlyph
        { codePoint := 0x1F600, variantId := "m", fontBuffer := 0, variationAxes := [],
          renderSize := 32 }).2)).2.1).getGlyph
        { codePoint := 0x1F600, variantId := "m", fontBuffer := 0,
          variationAxes := [], renderSize := 32 }).1.cached = true ∧
     (((processBatch { hasGlyph := fun _ _ => false, generate := fun _ _ _ _ => none }
        (((FontAtlasState.init DEFAULT_CONFIG).getGlyph
        { codePoint := 0x1F600, variantId := "m", fontBuffer := 0, variationAxes := [],
          renderSize := 32 }).2)).2.1).getGlyph
        { codePoint := 0x1F600, variantId := "m", fontBuffer := 0,
          variationAxes := [], renderSize := 32 }).1.missing = true ∧
     (((processBatch { hasGlyph := fun _ _ => false, generate := fun _ _ _ _ => none }
        (((FontAtlasState.init DEFAULT_CONFIG).getGlyph
        { codePoint := 0x1F600, variantId := "m", fontBuffer := 0, variationAxes := [],
          renderSize := 32 }).2)).2.1).getGlyph
        { codePoint := 0x1F600, variantId := "m", fontBuffer := 0,
          variationAxes := [], renderSize := 32 }).1.empty = true ∧
     (((processBatch { hasGlyph := fun _ _ => false, generate := fun _ _ _ _ => none }
        (((FontAtlasState.init DEFAULT_CONFIG).getGlyph
        { codePoint := 0x1F600, variantId := "m", fontBuffer := 0, variationAxes := [],
          renderSize := 32 }).2)).2.1).getGlyph
        { codePoint := 0x1F600, variantId := "m", fontBuffer := 0,
          variationAxes := [], renderSize := 32 }).1.metrics.width = 0) := by
  refine ⟨by decide, by decide, ?_⟩
  have h := processBatch_missing_glyph
    { hasGlyph := fun _ _ => false, generate := fun _ _ _ _ => none }
    (((FontAtlasState.init DEFAULT_CONFIG).getGlyph
      { codePoint := 0x1F600, variantId := "m", fontBuffer := 0, variationAxes := [],
        renderSize := 32 }).2)
    0x1F600 32 0 [] "m"
    { page := { texture := 0, width := 1024, height := 1024 }, x := 0, y := 0,
      width := 0, height := 0, metrics := PLACEHOLDER_METRICS,
      empty := false, missing := false }
    32 0 []
    (by decide) (by decide) (by decide) (by decide) (by decide)
  exact ⟨h.1, h.2.2.2.1, h.2.2.2.2.1, h.2.2.2.2.2.1, h.2.2.2.2.2.2⟩
